import Mathlib

/-!
Verification of the ShipFastBackend observation pipeline.

The development shallowly embeds the pipeline's data model and the
background-collection operations (query collection, alert detection,
schema snapshot collection, the context cache and the suggestion
synthesis job) as executable Lean definitions, translated from the
JavaScript sources, and proves the spec's testable properties about
them.  External collaborators (the Postgres driver, Prisma, Redis,
the text-generation client, the mailer) are modelled by their observed
interfaces: query results are lists of rows, the persistent store is a
list-backed state, the cache is an association list with expiry
timestamps, dispatched notifications are accumulated in a log.
-/

namespace ShipFast

/-- JavaScript `x || d` for a possibly-null string `x` (both `null` and
the empty string are falsy). -/
def jsOrElse (x : Option String) (d : String) : String :=
  match x with
  | none => d
  | some s => if s = "" then d else s

/-- JavaScript `x || null` for a possibly-null string (an empty string
collapses to `null`). -/
def jsOrNull (x : Option String) : Option String :=
  match x with
  | none => none
  | some s => if s = "" then none else some s

/-- JavaScript `parseInt(x) || 0` over a field that is either absent
(`undefined`/unparseable, modelled as `none`) or a number. -/
def jsNatOrZero (x : Option Nat) : Nat := x.getD 0

/-- JavaScript `parseFloat(x) || 0` over a field that is either absent
or a (rational-valued) number. -/
def jsRatOrZero (x : Option Rat) : Rat := x.getD 0

/-- JavaScript `Math.round`: round half towards positive infinity. -/
def jsRound (q : Rat) : Int := (q + 1/2).floor

/-!
## SHA-256

`hashQuery` in `utils/encryption.js` is
`crypto.createHash('sha256').update(query || '').digest('hex')`.
The Node `crypto` collaborator is reproduced here: a complete
executable SHA-256 over byte lists (bytes and 32-bit words are `Nat`
with explicit reduction modulo `2 ^ 32`).
-/

/-- Reduce to a 32-bit word. -/
def w32 (n : Nat) : Nat := n % 4294967296

/-- 32-bit rotate right by `k` (for `k` between 1 and 31). -/
def rotr32 (k n : Nat) : Nat := w32 ((n >>> k) ||| (n <<< (32 - k)))

/-- 32-bit bitwise complement (valid for `n < 2 ^ 32`). -/
def compl32 (n : Nat) : Nat := 4294967295 - n

/-- SHA-256 `Ch` function. -/
def shaCh (x y z : Nat) : Nat := (x &&& y) ^^^ (compl32 x &&& z)

/-- SHA-256 `Maj` function. -/
def shaMaj (x y z : Nat) : Nat := (x &&& y) ^^^ (x &&& z) ^^^ (y &&& z)

/-- SHA-256 upper-case Sigma-0. -/
def bigSigma0 (x : Nat) : Nat := rotr32 2 x ^^^ rotr32 13 x ^^^ rotr32 22 x

/-- SHA-256 upper-case Sigma-1. -/
def bigSigma1 (x : Nat) : Nat := rotr32 6 x ^^^ rotr32 11 x ^^^ rotr32 25 x

/-- SHA-256 lower-case sigma-0. -/
def smallSigma0 (x : Nat) : Nat := rotr32 7 x ^^^ rotr32 18 x ^^^ (x >>> 3)

/-- SHA-256 lower-case sigma-1. -/
def smallSigma1 (x : Nat) : Nat := rotr32 17 x ^^^ rotr32 19 x ^^^ (x >>> 10)

/-- The 64 SHA-256 round constants (decimal). -/
def shaK : List Nat :=
  [1116352408, 1899447441, 3049323471, 3921009573,
   961987163, 1508970993, 2453635748, 2870763221,
   3624381080, 310598401, 607225278, 1426881987,
   1925078388, 2162078206, 2614888103, 3248222580,
   3835390401, 4022224774, 264347078, 604807628,
   770255983, 1249150122, 1555081692, 1996064986,
   2554220882, 2821834349, 2952996808, 3210313671,
   3336571891, 3584528711, 113926993, 338241895,
   666307205, 773529912, 1294757372, 1396182291,
   1695183700, 1986661051, 2177026350, 2456956037,
   2730485921, 2820302411, 3259730800, 3345764771,
   3516065817, 3600352804, 4094571909, 275423344,
   430227734, 506948616, 659060556, 883997877,
   958139571, 1322822218, 1537002063, 1747873779,
   1955562222, 2024104815, 2227730452, 2361852424,
   2428436474, 2756734187, 3204031479, 3329325298]

/-- The SHA-256 initial hash value, as a list of eight words
(decimal). -/
def shaH0 : List Nat :=
  [1779033703, 3144134277, 1013904242, 2773480762,
   1359893119, 2600822924, 528734635, 1541459225]

/-- UTF-8 encoding of a single character as a list of bytes. -/
def utf8Char (c : Char) : List Nat :=
  let n := c.toNat
  if n < 0x80 then [n]
  else if n < 0x800 then
    [0xC0 ||| (n >>> 6), 0x80 ||| (n &&& 0x3F)]
  else if n < 0x10000 then
    [0xE0 ||| (n >>> 12), 0x80 ||| ((n >>> 6) &&& 0x3F), 0x80 ||| (n &&& 0x3F)]
  else
    [0xF0 ||| (n >>> 18), 0x80 ||| ((n >>> 12) &&& 0x3F),
     0x80 ||| ((n >>> 6) &&& 0x3F), 0x80 ||| (n &&& 0x3F)]

/-- UTF-8 encoding of a string as a list of bytes. -/
def utf8Bytes (s : String) : List Nat :=
  s.data.foldr (fun c acc => utf8Char c ++ acc) []

/-- SHA-256 message padding: append `0x80`, zero bytes up to 56 mod 64,
then the 64-bit big-endian bit length of the original message. -/
def shaPad (msg : List Nat) : List Nat :=
  let bitLen := 8 * msg.length
  let zeroCount := (55 + 64 - (msg.length % 64)) % 64
  msg ++ [0x80] ++ List.replicate zeroCount 0 ++
    [56, 48, 40, 32, 24, 16, 8, 0].map (fun k => (bitLen >>> k) % 256)

/-- Group a byte list into consecutive big-endian 32-bit words. -/
def bytesToWords : List Nat → List Nat
  | b0 :: b1 :: b2 :: b3 :: rest =>
      (b0 * 16777216 + b1 * 65536 + b2 * 256 + b3) :: bytesToWords rest
  | _ => []

/-- Split a (padded) byte list into 64-byte blocks. -/
def chunks64 : List Nat → List (List Nat)
  | [] => []
  | x :: xs => (x :: xs.take 63) :: chunks64 (xs.drop 63)
  termination_by l => l.length
  decreasing_by
    simp only [List.length_drop, List.length_cons]
    omega

/-- Extend a 16-word message schedule to 64 words (`k` extension steps
remaining). -/
def extendSchedule : Nat → List Nat → List Nat
  | 0, ws => ws
  | k + 1, ws =>
      let m := ws.length
      let next := w32 (smallSigma1 (ws.getD (m - 2) 0) + ws.getD (m - 7) 0 +
        smallSigma0 (ws.getD (m - 15) 0) + ws.getD (m - 16) 0)
      extendSchedule k (ws ++ [next])

/-- Working state of the SHA-256 compression loop. -/
structure Sha8 where
  a : Nat
  b : Nat
  c : Nat
  d : Nat
  e : Nat
  f : Nat
  g : Nat
  hh : Nat
  deriving DecidableEq

/-- One SHA-256 compression round for round constant `k` and schedule
word `w`. -/
def shaRound (st : Sha8) (kw : Nat × Nat) : Sha8 :=
  let t1 := w32 (st.hh + bigSigma1 st.e + shaCh st.e st.f st.g + kw.1 + kw.2)
  let t2 := w32 (bigSigma0 st.a + shaMaj st.a st.b st.c)
  { a := w32 (t1 + t2), b := st.a, c := st.b, d := st.c,
    e := w32 (st.d + t1), f := st.e, g := st.f, hh := st.g }

/-- Process one 64-byte block, updating the eight-word hash state. -/
def processBlock (hs : List Nat) (block : List Nat) : List Nat :=
  let ws := extendSchedule 48 (bytesToWords block)
  let st0 : Sha8 :=
    { a := hs.getD 0 0, b := hs.getD 1 0, c := hs.getD 2 0, d := hs.getD 3 0,
      e := hs.getD 4 0, f := hs.getD 5 0, g := hs.getD 6 0, hh := hs.getD 7 0 }
  let st := (shaK.zip ws).foldl shaRound st0
  [w32 (hs.getD 0 0 + st.a), w32 (hs.getD 1 0 + st.b),
   w32 (hs.getD 2 0 + st.c), w32 (hs.getD 3 0 + st.d),
   w32 (hs.getD 4 0 + st.e), w32 (hs.getD 5 0 + st.f),
   w32 (hs.getD 6 0 + st.g), w32 (hs.getD 7 0 + st.hh)]

/-- SHA-256 digest of a byte list, as eight 32-bit words. -/
def sha256 (msg : List Nat) : List Nat :=
  (chunks64 (shaPad msg)).foldl processBlock shaH0

/-- Lower-case hexadecimal digit for a value below 16. -/
def hexChar (n : Nat) : Char :=
  match n with
  | 0 => '0' | 1 => '1' | 2 => '2' | 3 => '3'
  | 4 => '4' | 5 => '5' | 6 => '6' | 7 => '7'
  | 8 => '8' | 9 => '9' | 10 => 'a' | 11 => 'b'
  | 12 => 'c' | 13 => 'd' | 14 => 'e' | _ => 'f'

/-- Render a 32-bit word as eight lower-case hex digits. -/
def wordToHex (w : Nat) : List Char :=
  (List.range 8).map (fun i => hexChar ((w >>> (28 - 4 * i)) % 16))

/-- Render a word list as a lower-case hex string. -/
def wordsToHex (ws : List Nat) : String :=
  String.mk (ws.foldr (fun w acc => wordToHex w ++ acc) [])

/-- `hashQuery` from `utils/encryption.js`: the SHA-256 hex digest of
`query || ''`.  The source function takes a single parameter; the input
is an optional string because `collectLogs` passes `row.query || ''`
and `enableQueryAlert` passes a request-body string. -/
def hashQuery (query : Option String) : String :=
  wordsToHex (sha256 (utf8Bytes (jsOrElse query "")))

/-- The call `hashQuery(query, userDb.id)` made by `enableQueryAlert`
in the alert opt-in controller: JavaScript silently discards arguments
beyond a function's parameter list, so the second argument never
reaches the digest. -/
def hashQueryCalled (query : String) (_userDbId : String) : String :=
  hashQuery (some query)

/-!
## Data model

Records mirror the Prisma schema (`prisma/migrations`) plus the columns
the collectors write.  Synthetic ids (Prisma `cuid`/`uuidv4`) are
modelled as counter-generated values.  The eight block-I/O counter
columns written by `collectLogs` are omitted: they are copied by the
same single assignment as the other metric fields and no property
mentions them.
-/

/-- A `UserDB` row: one monitored target database. -/
structure UserDB where
  id : String
  host : String
  port : Nat
  dbName : String
  username : String
  passwordEncrypted : String
  monitoringEnabled : Bool
  deriving DecidableEq

/-- A `QueryLog` row: the per-query aggregate record.  `queryType` and
`firstTable` are nullable; records created by the alert opt-in leave
them at their defaults. -/
structure QueryLog where
  id : Nat
  userDbId : String
  query : String
  queryHash : String
  calls : Nat
  totalTimeMs : Rat
  meanTimeMs : Rat
  minTimeMs : Rat
  maxTimeMs : Rat
  rowsReturned : Nat
  queryType : Option String
  firstTable : Option String
  collectedAt : Nat
  alertsEnabled : Bool
  deriving DecidableEq

/-- A `TopSlowQuery` row: the append-only critical-query event. -/
structure TopSlowQuery where
  id : String
  userDbId : String
  userId : String
  query : String
  calls : Nat
  totalTimeMs : Rat
  meanTimeMs : Rat
  rowsReturned : Nat
  rank : Nat
  deriving DecidableEq

/-- A column descriptor as returned by `getColumns`. -/
structure ColumnInfo where
  columnName : String
  dataType : String
  isNullable : String
  columnDefault : Option String
  deriving DecidableEq

/-- A foreign-key descriptor as returned by `getForeignKeys`. -/
structure ForeignKeyInfo where
  columnName : String
  foreignTableName : String
  foreignColumnName : String
  constraintName : String
  deriving DecidableEq

/-- An index descriptor as returned by `getIndexes`. -/
structure IndexInfo where
  indexname : String
  indexdef : String
  deriving DecidableEq

/-- A `TableStructure` row: the per-table schema snapshot. -/
structure TableStructure where
  id : String
  userDbId : String
  tableName : String
  schemaName : String
  columns : List ColumnInfo
  primaryKeys : List String
  foreignKeys : List ForeignKeyInfo
  indexes : List IndexInfo
  rowCount : Option Nat
  updatedAt : Nat
  deriving DecidableEq

/-- A `TableUsage` row. -/
structure TableUsage where
  id : String
  userDbId : String
  tableName : String
  callCount : Nat
  lastUsed : Nat
  deriving DecidableEq

/-- One suggestion object `{title, description, priority, category}`. -/
structure Suggestion where
  title : String
  description : String
  priority : String
  category : String
  deriving DecidableEq

/-- A `Top3Suggestions` row (`userDbId` carries a unique index, so it is
the identity; the synthetic primary key plays no role). -/
structure Top3Suggestions where
  userDbId : String
  suggestions : List Suggestion
  updatedAt : Nat
  deriving DecidableEq

/-- The per-query point-in-time object assembled by the alert engine
(`queryObj` in `collectAlertQueries`). -/
structure QueryObj where
  query : String
  calls : Nat
  totalTimeMs : Rat
  meanTimeMs : Rat
  rowsReturned : Nat
  collectedAt : Nat
  deriving DecidableEq

/-- The `dbInfo` argument handed to the notification dispatcher. -/
structure DbInfo where
  host : String
  dbName : String
  username : String
  deriving DecidableEq

/-- One dispatched notification: `sendQueryAlert(criticalQueries,
dbInfo, email)` is modelled by appending this record to a log. -/
structure EmailAlert where
  queries : List QueryObj
  dbInfo : DbInfo
  toAddr : String
  deriving DecidableEq

/-- The denormalized context bundle built by
`buildAndCacheQueryContext`. -/
structure QueryContext where
  userDbId : String
  queryLogs : List QueryLog
  tableStructures : List TableStructure
  databaseContext : String
  cachedAt : Nat
  deriving DecidableEq

/-!
## Context cache layer (`services/cacheService.js`)

Redis is modelled as an association list of entries with absolute
expiry timestamps plus the client's `isOpen` reachability flag; the
clock is an explicit `now` parameter (seconds).  `JSON.stringify` /
`JSON.parse` round-tripping of the stored bundle is modelled as the
identity.  The value type is a parameter so the operations can be
stated once.
-/

/-- The cache store: reachability flag plus entries
`(key, expiresAt, value)`. -/
structure CacheState (α : Type) where
  isOpen : Bool
  entries : List (String × Nat × α)
  deriving DecidableEq

/-- `CACHE_TTL` — one hour in seconds. -/
def CACHE_TTL : Nat := 3600

/-- `getCacheKey`. -/
def getCacheKey (username : String) : String := "query_context:" ++ username

/-- `getQueryContext`: `null` when the client is closed, the key is
absent, or the entry has expired. -/
def getQueryContext (now : Nat) (c : CacheState α) (username : String) : Option α :=
  if c.isOpen = false then none
  else
    match c.entries.find? (fun e => e.1 = getCacheKey username) with
    | some e => if now < e.2.1 then some e.2.2 else none
    | none => none

/-- `setQueryContext`: `setEx key CACHE_TTL value` — a no-op when the
client is closed, otherwise it replaces any entry under the key and
arms a fresh TTL. -/
def setQueryContext (now : Nat) (c : CacheState α) (username : String) (v : α) :
    CacheState α :=
  if c.isOpen = false then c
  else
    { c with entries :=
        c.entries.filter (fun e => e.1 ≠ getCacheKey username) ++
          [(getCacheKey username, now + CACHE_TTL, v)] }

/-- `invalidateUserCache`: `del key` — a no-op when the client is
closed. -/
def invalidateUserCache (c : CacheState α) (username : String) : CacheState α :=
  if c.isOpen = false then c
  else { c with entries := c.entries.filter (fun e => e.1 ≠ getCacheKey username) }

/-- `invalidateDatabaseCache`: resolve the target's username through
the store, then invalidate that user's key. -/
def invalidateDatabaseCache (userDbs : List UserDB) (c : CacheState α)
    (userDbId : String) : CacheState α :=
  match userDbs.find? (fun u => u.id = userDbId) with
  | some u => invalidateUserCache c u.username
  | none => c

/-!
## The system state

One record of every persistent-store table, the cache, and the log of
dispatched notifications.  `nextLogId` / `nextTableId` generate the
synthetic ids.
-/

/-- The persistent store, cache and notification log. -/
structure SystemState where
  userDbs : List UserDB
  logs : List QueryLog
  nextLogId : Nat
  tableUsages : List TableUsage
  tables : List TableStructure
  nextTableId : Nat
  topSlow : List TopSlowQuery
  suggestions : List Top3Suggestions
  cache : CacheState QueryContext
  emails : List EmailAlert
  deriving DecidableEq

/-!
## Query Collection Engine (`collectLogs`, `jobs/queryCollector.js`)

The statistics query's answer is modelled as a list of rows carrying
the selected columns (the per-target oracle `rowsFor`); nullable or
unparseable values are `none`, resolved exactly where the source
applies `|| 0` / `|| ''` / `|| 'OTHER'` / `|| null`.
-/

/-- A row of the collection engine's statistics query (the columns it
selects and later reads). -/
structure StatRow where
  query : Option String
  calls : Option Nat
  totalExecTime : Option Rat
  meanExecTime : Option Rat
  minExecTime : Option Rat
  maxExecTime : Option Rat
  rowsCol : Option Nat
  queryType : Option String
  firstTable : Option String
  deriving DecidableEq

/-- The `data` object `collectLogs` builds for each row and writes via
update or create. -/
structure QueryData where
  queryHash : String
  calls : Nat
  totalTimeMs : Rat
  meanTimeMs : Rat
  minTimeMs : Rat
  maxTimeMs : Rat
  rowsReturned : Nat
  queryType : Option String
  firstTable : Option String
  collectedAt : Nat
  alertsEnabled : Bool
  deriving DecidableEq

/-- Build the `data` object from a row (`collectLogs`, rows loop). -/
def dataOfRow (now : Nat) (row : StatRow) : QueryData :=
  { queryHash := hashQuery (some (jsOrElse row.query ""))
    calls := jsNatOrZero row.calls
    totalTimeMs := jsRatOrZero row.totalExecTime
    meanTimeMs := jsRatOrZero row.meanExecTime
    minTimeMs := jsRatOrZero row.minExecTime
    maxTimeMs := jsRatOrZero row.maxExecTime
    rowsReturned := jsNatOrZero row.rowsCol
    queryType := some (jsOrElse row.queryType "OTHER")
    firstTable := jsOrNull row.firstTable
    collectedAt := now
    alertsEnabled := false }

/-- `prisma.queryLog.update({where: {id}, data})`: overwrite every field
carried by `data` (note: the update also resets `alertsEnabled`, since
`data` always carries `alertsEnabled: false`). -/
def applyData (l : QueryLog) (d : QueryData) : QueryLog :=
  { l with
    queryHash := d.queryHash,
    calls := d.calls,
    totalTimeMs := d.totalTimeMs,
    meanTimeMs := d.meanTimeMs,
    minTimeMs := d.minTimeMs,
    maxTimeMs := d.maxTimeMs,
    rowsReturned := d.rowsReturned,
    queryType := d.queryType,
    firstTable := d.firstTable,
    collectedAt := d.collectedAt,
    alertsEnabled := d.alertsEnabled }

/-- `prisma.queryLog.create` as issued by `collectLogs` for an
unobserved query. -/
def newLogOf (id : Nat) (userDbId : String) (queryText : String)
    (d : QueryData) : QueryLog :=
  { id := id, userDbId := userDbId, query := queryText,
    queryHash := d.queryHash, calls := d.calls,
    totalTimeMs := d.totalTimeMs, meanTimeMs := d.meanTimeMs,
    minTimeMs := d.minTimeMs, maxTimeMs := d.maxTimeMs,
    rowsReturned := d.rowsReturned, queryType := d.queryType,
    firstTable := d.firstTable, collectedAt := d.collectedAt,
    alertsEnabled := d.alertsEnabled }

/-- `prisma.queryLog.create` under the `QueryLog_queryHash_key` unique
index declared by `prisma/migrations/20250913095206_init/migration.sql`
(a repository-wide unique constraint on the hash column alone, which
the later `fresh_start` migration leaves in place): the insert is
rejected whenever any record in the whole table already carries the
same hash. -/
def prismaCreateQueryLog (logs : List QueryLog) (newRec : QueryLog) :
    Except String (List QueryLog) :=
  if logs.any (fun l => l.queryHash = newRec.queryHash) then
    Except.error "Unique constraint failed on the fields: (queryHash)"
  else Except.ok (logs ++ [newRec])

/-- One iteration of the `collectLogs` rows loop: find the record by
`(userDbId, queryHash)`, update it if present, create it otherwise,
then invalidate the target's cache entry.  The create runs under the
repository-wide unique hash index: when any record — for whatever
target — already carries the hash, the insert throws and the row-level
catch skips the rest of the row's body (no record is written and, the
invalidation sitting after the upsert inside the `try`, the cache is
not invalidated either). -/
def processLogRow (db : UserDB) (now : Nat) (s : SystemState) (row : StatRow) :
    SystemState :=
  let d := dataOfRow now row
  match s.logs.find? (fun l => decide (l.userDbId = db.id ∧ l.queryHash = d.queryHash)) with
  | some e =>
      { s with
        logs := s.logs.map (fun l => if l.id = e.id then applyData l d else l),
        cache := invalidateDatabaseCache s.userDbs s.cache db.id }
  | none =>
      match prismaCreateQueryLog s.logs
          (newLogOf s.nextLogId db.id (jsOrElse row.query "") d) with
      | Except.ok ls =>
          { s with
            logs := ls,
            nextLogId := s.nextLogId + 1,
            cache := invalidateDatabaseCache s.userDbs s.cache db.id }
      | Except.error _ => s

/-- The `collectLogs` body for one target: fold the upsert over the
statistics rows. -/
def collectLogsForDb (db : UserDB) (rows : List StatRow) (now : Nat)
    (s : SystemState) : SystemState :=
  rows.foldl (processLogRow db now) s

/-- `collectLogs`: iterate the monitoring-enabled targets sequentially;
`rowsFor` is the statistics-extension oracle, keyed by target id. -/
def collectLogs (rowsFor : String → List StatRow) (now : Nat)
    (s : SystemState) : SystemState :=
  (s.userDbs.filter (fun db => db.monitoringEnabled)).foldl
    (fun st db => collectLogsForDb db (rowsFor db.id) now st) s

/-!
## Alert Detection & Dispatch Engine (`collectAlertQueries`,
`jobs/queryCollector.js`)
-/

/-- `CRITICAL_QUERY_THRESHOLD_MS`. -/
def CRITICAL_QUERY_THRESHOLD_MS : Rat := 500

/-- `HARDCODED_EMAIL`. -/
def HARDCODED_EMAIL : String := "nischaysinha261@gmail.com"

/-- `isCriticalQuery`: mean execution time strictly above the 500 ms
threshold. -/
def isCriticalQuery (q : QueryObj) : Bool :=
  CRITICAL_QUERY_THRESHOLD_MS < q.meanTimeMs

/-- A row of the alert engine's statistics query (`SELECT query, calls,
total_exec_time, mean_exec_time, rows`). -/
structure AlertRow where
  query : Option String
  calls : Option Nat
  totalExecTime : Option Rat
  meanExecTime : Option Rat
  rowsCol : Option Nat
  deriving DecidableEq

/-- The `queryObj` assembled from an alert row. -/
def objOfRow (now : Nat) (row : AlertRow) : QueryObj :=
  { query := jsOrElse row.query ""
    calls := jsNatOrZero row.calls
    totalTimeMs := jsRatOrZero row.totalExecTime
    meanTimeMs := jsRatOrZero row.meanExecTime
    rowsReturned := jsNatOrZero row.rowsCol
    collectedAt := now }

/-- JavaScript `Map.set`: replace the binding if the key is present,
append it otherwise. -/
def mapSet (m : List (String × QueryLog)) (k : String) (v : QueryLog) :
    List (String × QueryLog) :=
  if m.any (fun p => p.1 = k) then
    m.map (fun p => if p.1 = k then (k, v) else p)
  else m ++ [(k, v)]

/-- JavaScript `Map.get` (`none` for a missing key). -/
def mapGet (m : List (String × QueryLog)) (k : String) : Option QueryLog :=
  (m.find? (fun p => p.1 = k)).map (fun p => p.2)

/-- The `queryMap` of `collectAlertQueries`: alert-enabled records of
the target keyed by exact query text (last one wins, as with
`Map.set`). -/
def buildQueryMap (qs : List QueryLog) : List (String × QueryLog) :=
  qs.foldl (fun m q => mapSet m q.query q) []

/-- `dbInfo` for the dispatcher. -/
def dbInfoOf (db : UserDB) : DbInfo :=
  { host := db.host, dbName := db.dbName, username := db.username }

/-- The `TopSlowQuery` event appended for the `rank`-th critical row of
a poll. -/
def eventOf (db : UserDB) (now : Nat) (rank : Nat) (obj : QueryObj) :
    TopSlowQuery :=
  { id := "alert-" ++ db.id ++ "-" ++ toString now ++ "-" ++ toString rank
    userDbId := db.id
    userId := "user-0001"
    query := obj.query
    calls := obj.calls
    totalTimeMs := obj.totalTimeMs
    meanTimeMs := obj.meanTimeMs
    rowsReturned := obj.rowsReturned
    rank := rank }

/-- One iteration of the alert engine's rows loop.  A row that matches
no alert-enabled text is skipped; a matched sub-threshold row is *also*
a no-op (the metric update, the cache invalidation and the event append
all sit inside the critical branch); a matched critical row is recorded
in the running `criticalQueries` list, the matched record's metrics are
overwritten, the target's cache entry is invalidated and an event is
appended with the 1-based critical rank. -/
def processAlertRow (db : UserDB) (qmap : List (String × QueryLog)) (now : Nat)
    (acc : SystemState × List QueryObj) (row : AlertRow) :
    SystemState × List QueryObj :=
  let queryText := jsOrElse row.query ""
  match mapGet qmap queryText with
  | none => acc
  | some alertQuery =>
      let obj := objOfRow now row
      if isCriticalQuery obj then
        let s := acc.1
        let crit := acc.2 ++ [obj]
        { s with
          logs := s.logs.map (fun l =>
            if l.id = alertQuery.id then
              { l with
                calls := obj.calls,
                totalTimeMs := obj.totalTimeMs,
                meanTimeMs := obj.meanTimeMs,
                rowsReturned := obj.rowsReturned,
                collectedAt := now }
            else l),
          cache := invalidateDatabaseCache s.userDbs s.cache db.id,
          topSlow := s.topSlow ++ [eventOf db now crit.length obj] }
        |> fun s2 => (s2, crit)
      else acc

/-- The alert engine's body for one target: fold over the rows, then
dispatch a single notification carrying the whole critical batch — but
only when the batch is non-empty. -/
def collectAlertForDb (db : UserDB) (queries : List QueryLog)
    (rows : List AlertRow) (now : Nat) (s : SystemState) : SystemState :=
  let qmap := buildQueryMap queries
  let r := rows.foldl (processAlertRow db qmap now) (s, [])
  if 0 < r.2.length then
    { r.1 with emails := r.1.emails ++ [⟨r.2, dbInfoOf db, HARDCODED_EMAIL⟩] }
  else r.1

/-- First-occurrence deduplication, mirroring the insertion order of
the `queriesByDb` object's keys. -/
def dedupFirst : List String → List String
  | [] => []
  | x :: xs => x :: (dedupFirst xs).filter (fun y => y ≠ x)

/-- `collectAlertQueries`: fetch every alert-enabled record (with its
target resolved through the store, as the `include`), group by target
id, and run the per-target body over each group. -/
def collectAlertQueries (rowsFor : String → List AlertRow) (now : Nat)
    (s : SystemState) : SystemState :=
  let alertQueries := s.logs.filter (fun l => l.alertsEnabled)
  let dbIds := dedupFirst (alertQueries.map (fun l => l.userDbId))
  dbIds.foldl
    (fun st dbId =>
      match s.userDbs.find? (fun u => u.id = dbId) with
      | none => st
      | some db =>
          collectAlertForDb db (alertQueries.filter (fun l => l.userDbId = dbId))
            (rowsFor dbId) now st)
    s

/-!
## Schema Snapshot Collector
(`controllers/collectTableDataController.js`)

`getTableStructure` runs five concurrent read-only metadata queries per
table; its combined answer is the `TableData` payload below, with
`rowCount = none` when the row-count query failed.  Note that this
collector touches only the `TableStructure` store: it performs no cache
operation.
-/

/-- The payload `getTableStructure` assembles for one table. -/
structure TableData where
  columns : List ColumnInfo
  primaryKeys : List String
  foreignKeys : List ForeignKeyInfo
  indexes : List IndexInfo
  rowCount : Option Nat
  deriving DecidableEq

/-- `prisma.tableStructure.upsert` keyed by
`(userDbId, schemaName, tableName)`; the fresh uuid of the create
branch is counter-generated. -/
def upsertTableStructure (ts : List TableStructure) (freshId : String)
    (userDbId tableName : String) (td : TableData) (now : Nat) :
    List TableStructure :=
  if ts.any (fun t =>
      t.userDbId = userDbId ∧ t.schemaName = "public" ∧ t.tableName = tableName) then
    ts.map (fun t =>
      if t.userDbId = userDbId ∧ t.schemaName = "public" ∧ t.tableName = tableName then
        { t with
          columns := td.columns,
          primaryKeys := td.primaryKeys,
          foreignKeys := td.foreignKeys,
          indexes := td.indexes,
          rowCount := td.rowCount,
          updatedAt := now }
      else t)
  else
    ts ++ [{ id := freshId, userDbId := userDbId, tableName := tableName,
             schemaName := "public", columns := td.columns,
             primaryKeys := td.primaryKeys, foreignKeys := td.foreignKeys,
             indexes := td.indexes, rowCount := td.rowCount, updatedAt := now }]

/-- `collectTableDataForDatabase`: upsert one snapshot per enumerated
table.  `tablesData` is the target database's answer — the enumerated
table names with their metadata payloads. -/
def collectTableDataForDatabase (db : UserDB)
    (tablesData : List (String × TableData)) (now : Nat) (s : SystemState) :
    SystemState :=
  tablesData.foldl
    (fun st td =>
      { st with
        tables := upsertTableStructure st.tables ("uuid-" ++ toString st.nextTableId)
          db.id td.1 td.2 now,
        nextTableId := st.nextTableId + 1 })
    s

/-!
## Sorting (Prisma `orderBy` / JavaScript `Array.sort`)

A simple insertion sort; `le x y = true` places `x` no later than `y`.
-/

/-- Insert `x` in front of the first element it may precede. -/
def insertBy (le : α → α → Bool) (x : α) : List α → List α
  | [] => [x]
  | y :: ys => if le x y then x :: y :: ys else y :: insertBy le x ys

/-- Insertion sort. -/
def sortBy (le : α → α → Bool) (l : List α) : List α :=
  l.foldr (insertBy le) []

/-- Descending order on `meanTimeMs` for query records. -/
def byMeanDesc (a b : QueryLog) : Bool := b.meanTimeMs ≤ a.meanTimeMs

/-- Descending order on `meanTimeMs` for slow-query events. -/
def byMeanDescTS (a b : TopSlowQuery) : Bool := b.meanTimeMs ≤ a.meanTimeMs

/-- Descending order on `callCount` for table-usage rows. -/
def byCallDesc (a b : TableUsage) : Bool := b.callCount ≤ a.callCount

/-!
## Suggestion Synthesis Engine (`jobs/suggestionAnalyzer.js`)
-/

/-- `performanceStats` of `calculatePerformanceStats`.  `avgQueryTime`
and `totalTime` are `Math.round`ed. -/
structure PerformanceStats where
  avgQueryTime : Int
  slowestQuery : Option QueryLog
  totalCalls : Nat
  totalTime : Int
  deriving DecidableEq

/-- `calculatePerformanceStats`.  When every record reports zero calls
the source's `totalTime / totalCalls` is an IEEE `NaN` or infinity;
rational division by zero yields `0` here, which takes the same
`avgQueryTime > 100` branch as `NaN` (a divergence only in the
unreachable corner of zero calls with positive total time). -/
def calculatePerformanceStats (queryLogs : List QueryLog) : PerformanceStats :=
  if queryLogs.isEmpty then
    { avgQueryTime := 0, slowestQuery := none, totalCalls := 0, totalTime := 0 }
  else
    let totalCalls : Nat := queryLogs.foldl (fun sum q => sum + q.calls) 0
    let totalTime : Rat := queryLogs.foldl (fun sum q => sum + q.totalTimeMs) 0
    { avgQueryTime := jsRound (totalTime / (totalCalls : Rat))
      slowestQuery := queryLogs.head?
      totalCalls := totalCalls
      totalTime := jsRound totalTime }

/-- `tableAnalysis` of `analyzeTableUsage`. -/
structure TableAnalysis where
  mostUsedTables : List TableUsage
  unusedTables : List TableStructure
  totalTableUsages : Nat
  deriving DecidableEq

/-- `analyzeTableUsage`: the five most-called usage rows, and the
structures whose table name appears in no usage row. -/
def analyzeTableUsage (tableUsages : List TableUsage)
    (tableStructures : List TableStructure) : TableAnalysis :=
  let usageNames := tableUsages.map (fun u => u.tableName)
  { mostUsedTables := (sortBy byCallDesc tableUsages).take 5
    unusedTables := tableStructures.filter (fun t =>
      decide (t.tableName ∉ usageNames))
    totalTableUsages := tableUsages.length }

/-- The bundle returned by `gatherDatabaseMetrics`. -/
structure DbMetrics where
  hasData : Bool
  queryLogs : List QueryLog
  tableUsages : List TableUsage
  tableStructures : List TableStructure
  topSlowQueries : List TopSlowQuery
  performanceStats : PerformanceStats
  tableAnalysis : TableAnalysis
  totalTables : Nat
  totalQueries : Nat
  avgQueryTime : Int
  slowestQuery : Option QueryLog
  mostUsedTables : List TableUsage
  unusedTables : List TableStructure
  deriving DecidableEq

/-- `gatherDatabaseMetrics`: the twenty slowest query records, every
usage row and table structure, and the ten slowest events for a target,
plus the derived statistics.  `hasData` is true exactly when the target
has at least one query record or one table structure — there is no
threshold filter of any kind. -/
def gatherDatabaseMetrics (s : SystemState) (userDbId : String) : DbMetrics :=
  let queryLogs := (sortBy byMeanDesc (s.logs.filter (fun l => l.userDbId = userDbId))).take 20
  let tableUsages := sortBy byCallDesc (s.tableUsages.filter (fun u => u.userDbId = userDbId))
  let tableStructures := s.tables.filter (fun t => t.userDbId = userDbId)
  let topSlowQueries := (sortBy byMeanDescTS (s.topSlow.filter (fun t => t.userDbId = userDbId))).take 10
  let performanceStats := calculatePerformanceStats queryLogs
  let tableAnalysis := analyzeTableUsage tableUsages tableStructures
  { hasData := !queryLogs.isEmpty || !tableStructures.isEmpty
    queryLogs := queryLogs
    tableUsages := tableUsages
    tableStructures := tableStructures
    topSlowQueries := topSlowQueries
    performanceStats := performanceStats
    tableAnalysis := tableAnalysis
    totalTables := tableStructures.length
    totalQueries := queryLogs.length
    avgQueryTime := performanceStats.avgQueryTime
    slowestQuery := performanceStats.slowestQuery
    mostUsedTables := tableAnalysis.mostUsedTables
    unusedTables := tableAnalysis.unusedTables }

/-- `generateFallbackSuggestions`: three deterministic heuristic
suggestions derived from the gathered metrics — one per `push` site. -/
def generateFallbackSuggestions (dbMetrics : DbMetrics) : List Suggestion :=
  let s1 : Suggestion :=
    if 100 < dbMetrics.performanceStats.avgQueryTime then
      { title := "Optimize Query Performance"
        description := "Average query time is " ++
          toString dbMetrics.performanceStats.avgQueryTime ++
          "ms. Consider adding indexes and optimizing query structure."
        priority := "high"
        category := "query_optimization" }
    else
      { title := "Monitor Query Performance"
        description := "Set up comprehensive monitoring to track query performance and identify bottlenecks early."
        priority := "medium"
        category := "monitoring" }
  let s2 : Suggestion :=
    if 0 < dbMetrics.unusedTables.length then
      { title := "Clean Up Unused Tables"
        description := "Found " ++ toString dbMetrics.unusedTables.length ++
          " unused tables that can be removed to reduce storage overhead."
        priority := "low"
        category := "maintenance" }
    else if 0 < dbMetrics.tableAnalysis.mostUsedTables.length then
      { title := "Optimize Table Access Patterns"
        description := "Focus on optimizing the most frequently accessed tables: " ++
          String.intercalate ", "
            ((dbMetrics.tableAnalysis.mostUsedTables.take 3).map (fun t => t.tableName)) ++
          "."
        priority := "medium"
        category := "table_optimization" }
    else
      { title := "Review Database Schema"
        description := "Analyze table structures and relationships to identify optimization opportunities."
        priority := "medium"
        category := "schema_design" }
  let s3 : Suggestion :=
    if 10 < dbMetrics.totalTables then
      { title := "Consider Table Partitioning"
        description := "With " ++ toString dbMetrics.totalTables ++
          " tables, consider partitioning large tables to improve performance and maintenance."
        priority := "low"
        category := "partitioning" }
    else
      { title := "Review Database Configuration"
        description := "Review and optimize database configuration settings for better performance."
        priority := "low"
        category := "configuration" }
  [s1, s2, s3]

/-- The outcome of extracting and `JSON.parse`-ing the text-generation
collaborator's response (lines 253-267 of `suggestionAnalyzer.js`).
`fail` is a thrown parse error; `arr` is a successfully parsed JSON
array of suggestion objects; `nonArray` is any other successfully
parsed JSON value — for those, the later `suggestions?.slice(0, 3)`
raises a `TypeError` that the per-target catch swallows, skipping the
target's upsert.  (A bare JSON string, whose `slice` would not raise,
cannot be produced: the bracket-extraction regex feeds the parser an
array literal whenever one is present, and a whole-response parse of
prose is a parse failure.) -/
inductive ParseOutcome where
  | fail : ParseOutcome
  | arr : List Suggestion → ParseOutcome
  | nonArray : ParseOutcome
  deriving DecidableEq

/-- `prisma.top3Suggestions.upsert` keyed by the unique `userDbId`. -/
def upsertSuggestions (sets : List Top3Suggestions) (userDbId : String)
    (sugg : List Suggestion) (now : Nat) : List Top3Suggestions :=
  if sets.any (fun t => t.userDbId = userDbId) then
    sets.map (fun t =>
      if t.userDbId = userDbId then
        { t with suggestions := sugg, updatedAt := now }
      else t)
  else sets ++ [{ userDbId := userDbId, suggestions := sugg, updatedAt := now }]

/-- The loop body of `analyzeAndUpdateSuggestions` for one target:
gather metrics; skip the target when `hasData` is false; otherwise take
the parsed AI array, or the deterministic fallback on parse failure;
truncate with `slice(0, 3)` whenever the result is not exactly three
elements; and upsert the target's suggestion set. -/
def analyzeTarget (s : SystemState) (db : UserDB) (outcome : ParseOutcome)
    (now : Nat) : SystemState :=
  let dbMetrics := gatherDatabaseMetrics s db.id
  if dbMetrics.hasData = false then s
  else
    match outcome with
    | .nonArray => s
    | .fail =>
        let suggestions := generateFallbackSuggestions dbMetrics
        let final := if suggestions.length = 3 then suggestions else suggestions.take 3
        { s with suggestions := upsertSuggestions s.suggestions db.id final now }
    | .arr l =>
        let final := if l.length = 3 then l else l.take 3
        { s with suggestions := upsertSuggestions s.suggestions db.id final now }

/-- `analyzeAndUpdateSuggestions`: one `analyzeTarget` step per
monitoring-enabled target; `outcomeFor` is the per-target parse outcome
of the collaborator's response. -/
def analyzeAndUpdateSuggestions (outcomeFor : String → ParseOutcome) (now : Nat)
    (s : SystemState) : SystemState :=
  (s.userDbs.filter (fun db => db.monitoringEnabled)).foldl
    (fun st db => analyzeTarget st db (outcomeFor db.id) now) s

/-!
## Query-context building (`buildAndCacheQueryContext`)
-/

/-- Printed form of a nullable row count (JavaScript interpolates
`null`). -/
def showOptNat (o : Option Nat) : String :=
  match o with
  | some n => toString n
  | none => "null"

/-- `buildDatabaseContextString`: the human-readable narrative composed
from the query records and table structures.  JavaScript `substring`
counts UTF-16 units where `String.take` counts characters; identical on
the basic plane. -/
def buildDatabaseContextString (queryLogs : List QueryLog)
    (tableStructures : List TableStructure) : String :=
  if queryLogs.isEmpty && tableStructures.isEmpty then ""
  else
    let base := "\n\n=== DATABASE CONTEXT ===\n"
    let withQueries :=
      if !queryLogs.isEmpty then
        base ++ "\n**Recent Query Performance:**\n" ++
          String.join ((queryLogs.enum.map (fun li =>
            toString (li.1 + 1) ++ ". Query: " ++ li.2.query.take 100 ++
              (if 100 < li.2.query.length then "..." else "") ++ "\n" ++
              "   - Calls: " ++ toString li.2.calls ++ ", Mean Time: " ++
              toString (jsRound li.2.meanTimeMs) ++ "ms, Total Time: " ++
              toString (jsRound li.2.totalTimeMs) ++ "ms\n")))
      else base
    let withTables :=
      if !tableStructures.isEmpty then
        withQueries ++ "\n**Table Structures:**\n" ++
          String.join (tableStructures.map (fun t =>
            "\nTable: " ++ t.tableName ++ " (" ++ showOptNat t.rowCount ++ " rows)\n" ++
              "Columns: " ++
              String.intercalate ", " (t.columns.map (fun c =>
                c.columnName ++ " (" ++ c.dataType ++ ")")) ++ "\n" ++
              (if 0 < t.primaryKeys.length then
                "Primary Keys: " ++ String.intercalate ", " t.primaryKeys ++ "\n"
              else "") ++
              (if 0 < t.indexes.length then
                "Indexes: " ++
                  String.intercalate ", " (t.indexes.map (fun i => i.indexname)) ++ "\n"
              else "")))
      else withQueries
    withTables ++ "\n=== END DATABASE CONTEXT ===\n\n"

/-- `buildAndCacheQueryContext`: rebuild the context bundle for a user
from the store (top twenty records by mean time, every structure), then
cache it; returns the bundle together with the updated cache. -/
def buildAndCacheQueryContext (s : SystemState) (now : Nat) (username : String) :
    QueryContext × CacheState QueryContext :=
  match s.userDbs.find? (fun u => u.username = username) with
  | none =>
      ({ userDbId := "", queryLogs := [], tableStructures := [],
         databaseContext := "", cachedAt := now }, s.cache)
  | some userDb =>
      let queryLogs := (sortBy byMeanDesc (s.logs.filter (fun l => l.userDbId = userDb.id))).take 20
      let tableStructures := s.tables.filter (fun t => t.userDbId = userDb.id)
      let context : QueryContext :=
        { userDbId := userDb.id
          queryLogs := queryLogs
          tableStructures := tableStructures
          databaseContext := buildDatabaseContextString queryLogs tableStructures
          cachedAt := now }
      (context, setQueryContext now s.cache username context)

/-!
## Alert opt-in (`enableQueryAlert`, the alert-queries controller)

The opt-in's create goes through the same `prismaCreateQueryLog`
(the `QueryLog_queryHash_key` unique index) as the collection engine's.
-/

/-- The record `enableQueryAlert` creates for a not-yet-observed query:
zeroed metrics, alerts on. -/
def newAlertLog (id : Nat) (userDbId queryText queryHash : String) (now : Nat) :
    QueryLog :=
  { id := id, userDbId := userDbId, query := queryText,
    queryHash := queryHash, calls := 0, totalTimeMs := 0, meanTimeMs := 0,
    minTimeMs := 0, maxTimeMs := 0, rowsReturned := 0, queryType := none,
    firstTable := none, collectedAt := now, alertsEnabled := true }

/-- `enableQueryAlert` (store effect): hash the posted query text (the
target id passed along is discarded by `hashQuery`), flip
`alertsEnabled` on the target's record when one exists, otherwise
create a zeroed record — an insert the unique hash index may reject. -/
def enableQueryAlert (logs : List QueryLog) (nextId : Nat) (userDb : UserDB)
    (query : String) (now : Nat) : Except String (List QueryLog × Nat) :=
  let queryHash := hashQueryCalled query userDb.id
  match logs.find? (fun l => decide (l.queryHash = queryHash ∧ l.userDbId = userDb.id)) with
  | some e =>
      Except.ok
        (logs.map (fun l => if l.id = e.id then { l with alertsEnabled := true } else l),
         nextId)
  | none =>
      (prismaCreateQueryLog logs (newAlertLog nextId userDb.id query queryHash now)).map
        (fun ls => (ls, nextId + 1))

/-!
## Specification views of the alert poll

Auxiliary descriptions of the alert engine's per-poll effect, used to
state and prove its properties: the critical matched rows of a poll,
the events they give rise to (with 1-based ranks counted from `k`), and
the per-row metric overwrite.
-/

/-- A row both matches an alert-enabled text and exceeds the critical
threshold. -/
def matchedCritical (qmap : List (String × QueryLog)) (now : Nat)
    (row : AlertRow) : Bool :=
  (mapGet qmap (jsOrElse row.query "")).isSome && isCriticalQuery (objOfRow now row)

/-- The critical matched rows of a poll, in row order. -/
def critRows (qmap : List (String × QueryLog)) (now : Nat)
    (rows : List AlertRow) : List AlertRow :=
  rows.filter (matchedCritical qmap now)

/-- The events appended for a run of critical rows, ranked `k+1`,
`k+2`, …. -/
def mkEvents (db : UserDB) (now : Nat) : Nat → List AlertRow → List TopSlowQuery
  | _, [] => []
  | k, r :: rs => eventOf db now (k + 1) (objOfRow now r) :: mkEvents db now (k + 1) rs

/-- The metric overwrite a critical matched row performs on the store's
records. -/
def updateForRow (qmap : List (String × QueryLog)) (now : Nat)
    (logs : List QueryLog) (row : AlertRow) : List QueryLog :=
  match mapGet qmap (jsOrElse row.query "") with
  | none => logs
  | some aq =>
      let obj := objOfRow now row
      logs.map (fun l =>
        if l.id = aq.id then
          { l with
            calls := obj.calls,
            totalTimeMs := obj.totalTimeMs,
            meanTimeMs := obj.meanTimeMs,
            rowsReturned := obj.rowsReturned,
            collectedAt := now }
        else l)

/-!
## Specification views of the collection poll
-/

/-- The identity key the collection engine resolves records by. -/
def logKey (l : QueryLog) : String × String := (l.userDbId, l.queryHash)

/-- The content hash `collectLogs` computes for a row. -/
def hashOfRow (row : StatRow) : String := hashQuery (some (jsOrElse row.query ""))

/-- The store's records carrying a given `(target, hash)` key. -/
def keyFilter (logs : List QueryLog) (uid h : String) : List QueryLog :=
  logs.filter (fun l => decide (l.userDbId = uid ∧ l.queryHash = h))

/-- A record's metric fields agree with a poll's `data` object. -/
def MetricsMatch (l : QueryLog) (d : QueryData) : Prop :=
  l.calls = d.calls ∧ l.totalTimeMs = d.totalTimeMs ∧
    l.meanTimeMs = d.meanTimeMs ∧ l.minTimeMs = d.minTimeMs ∧
    l.maxTimeMs = d.maxTimeMs ∧ l.rowsReturned = d.rowsReturned ∧
    l.collectedAt = d.collectedAt

/-- Store sanity: synthetic ids are distinct and below the counter, and
no two records share a `(target, hash)` key — the latter is what the
store's unique indexes enforce. -/
def StoreInv (s : SystemState) : Prop :=
  (s.logs.map (fun l => l.id)).Nodup ∧
    (∀ l ∈ s.logs, l.id < s.nextLogId) ∧
    (s.logs.map logKey).Nodup

/-- No record of a *different* target carries the hash `h`: the
condition under which target `uid`'s create for `h` is not rejected by
the repository-wide `QueryLog_queryHash_key` unique index. -/
def NoForeignHash (s : SystemState) (uid h : String) : Prop :=
  ∀ l ∈ s.logs, l.queryHash = h → l.userDbId = uid

instance : DecidablePred StoreInv := fun s => by
  unfold StoreInv; infer_instance

/-- The current suggestion set of a target. -/
def findSuggestionSet (s : SystemState) (userDbId : String) :
    Option Top3Suggestions :=
  s.suggestions.find? (fun t => t.userDbId = userDbId)

/-!
## Concrete fixtures

Small concrete states used by counterexamples and witnesses.
-/

/-- A monitored target owned by user `alice`. -/
def dbA : UserDB :=
  { id := "db-a", host := "h", port := 5432, dbName := "prod",
    username := "alice", passwordEncrypted := "enc", monitoringEnabled := true }

/-- A second target owned by user `bob`. -/
def udbB : UserDB :=
  { id := "db-b", host := "h2", port := 5432, dbName := "prod2",
    username := "bob", passwordEncrypted := "enc2", monitoringEnabled := false }

/-- A cached context bundle. -/
def ctx0 : QueryContext :=
  { userDbId := "db-a", queryLogs := [], tableStructures := [],
    databaseContext := "ctx", cachedAt := 0 }

/-- A reachable cache holding `alice`'s entry, valid until `t = 1000`. -/
def cacheA : CacheState QueryContext :=
  { isOpen := true, entries := [("query_context:alice", 1000, ctx0)] }

/-- A base state: the single target `dbA`, empty stores, `alice`'s
context cached. -/
def baseState : SystemState :=
  { userDbs := [dbA], logs := [], nextLogId := 0, tableUsages := [],
    tables := [], nextTableId := 0, topSlow := [], suggestions := [],
    cache := cacheA, emails := [] }

/-- A table metadata payload. -/
def td0 : TableData :=
  { columns := [{ columnName := "id", dataType := "integer",
                  isNullable := "NO", columnDefault := none }],
    primaryKeys := ["id"], foreignKeys := [], indexes := [],
    rowCount := some 3 }

/-- An alert-enabled record for the text `SELECT 1` with zeroed
metrics. -/
def alertLog1 : QueryLog :=
  { id := 1, userDbId := "db-a", query := "SELECT 1", queryHash := "hash-1",
    calls := 0, totalTimeMs := 0, meanTimeMs := 0, minTimeMs := 0,
    maxTimeMs := 0, rowsReturned := 0, queryType := none, firstTable := none,
    collectedAt := 0, alertsEnabled := true }

/-- A matched row well under the critical threshold (mean 100 ms). -/
def slowRow : AlertRow :=
  { query := some "SELECT 1", calls := some 7, totalExecTime := some 700,
    meanExecTime := some 100, rowsCol := some 1 }

/-- A matched row over the critical threshold (mean 600 ms). -/
def critRow : AlertRow :=
  { query := some "SELECT 1", calls := some 9, totalExecTime := some 1200,
    meanExecTime := some 600, rowsCol := some 2 }

/-- A query record far below every threshold (mean 5 ms). -/
def lowLog : QueryLog :=
  { id := 2, userDbId := "db-a", query := "SELECT 2", queryHash := "hash-2",
    calls := 1, totalTimeMs := 5, meanTimeMs := 5, minTimeMs := 5,
    maxTimeMs := 5, rowsReturned := 1, queryType := some "SELECT",
    firstTable := none, collectedAt := 0, alertsEnabled := false }

/-- An alerts-disabled record with an enormous mean time. -/
def disabledLog : QueryLog :=
  { id := 3, userDbId := "db-a", query := "SELECT 3", queryHash := "hash-3",
    calls := 5, totalTimeMs := 50000, meanTimeMs := 10000, minTimeMs := 9000,
    maxTimeMs := 11000, rowsReturned := 4, queryType := some "SELECT",
    firstTable := none, collectedAt := 0, alertsEnabled := false }

/-- Three distinct suggestion objects. -/
def sgA : Suggestion :=
  { title := "t1", description := "d1", priority := "high", category := "indexing" }

/-- Second suggestion fixture. -/
def sgB : Suggestion :=
  { title := "t2", description := "d2", priority := "medium", category := "monitoring" }

/-- Third suggestion fixture. -/
def sgC : Suggestion :=
  { title := "t3", description := "d3", priority := "low", category := "maintenance" }

/-- A statistics row for the collection engine. -/
def statRow1 : StatRow :=
  { query := some "SELECT 1", calls := some 4, totalExecTime := some 40,
    meanExecTime := some 10, minExecTime := some 1, maxExecTime := some 20,
    rowsCol := some 2, queryType := some "SELECT", firstTable := some "users" }

/-- A record held by the *other* target `db-b` whose hash is the digest
of the text `SELECT 1` (as the alert opt-in would create it). -/
def foreignLog : QueryLog :=
  { id := 99, userDbId := "db-b", query := "SELECT 1",
    queryHash := hashQuery (some "SELECT 1"), calls := 0, totalTimeMs := 0,
    meanTimeMs := 0, minTimeMs := 0, maxTimeMs := 0, rowsReturned := 0,
    queryType := none, firstTable := none, collectedAt := 0,
    alertsEnabled := false }

/-- A state where the unmonitored target `db-b` already holds the hash
of `SELECT 1`, which the monitored target `db-a` is about to observe. -/
def cState : SystemState :=
  { baseState with userDbs := [dbA, udbB], logs := [foreignLog], nextLogId := 100 }

/-- A record for target `db-a` whose hash is the digest of its own
text. -/
def recA : QueryLog :=
  { id := 10, userDbId := "db-a", query := "SELECT 1",
    queryHash := hashQuery (some "SELECT 1"), calls := 0, totalTimeMs := 0,
    meanTimeMs := 0, minTimeMs := 0, maxTimeMs := 0, rowsReturned := 0,
    queryType := none, firstTable := none, collectedAt := 0,
    alertsEnabled := true }

/-!
## List helpers
-/

theorem find?_append_single {α : Type} (l : List α) (x : α) (p : α → Bool)
    (hx : p x = false) : (l ++ [x]).find? p = l.find? p := by
  induction l with
  | nil => simp [List.find?, hx]
  | cons a t ih =>
    by_cases h : p a
    · simp [List.find?_cons, h]
    · simp only [List.cons_append, List.find?_cons, Bool.not_eq_true] at *
      rw [h, ih]

theorem find?_map_fix {α : Type} (f : α → α) (p : α → Bool) (l : List α)
    (h1 : ∀ x ∈ l, p (f x) = p x) (h2 : ∀ x ∈ l, p x = true → f x = x) :
    (l.map f).find? p = l.find? p := by
  induction l with
  | nil => rfl
  | cons a t ih =>
    have ha1 := h1 a (by simp)
    by_cases h : p a
    · have := h2 a (by simp) h
      simp [List.find?_cons, this, h, ha1]
    · simp only [Bool.not_eq_true] at h
      simp only [List.map_cons, List.find?_cons, ha1, h]
      exact ih (fun x hx => h1 x (by simp [hx])) (fun x hx => h2 x (by simp [hx]))

theorem filter_map_comm {α : Type} (f : α → α) (p : α → Bool) (l : List α)
    (h : ∀ x ∈ l, p (f x) = p x) :
    (l.map f).filter p = (l.filter p).map f := by
  induction l with
  | nil => rfl
  | cons a t ih =>
    have ha := h a (by simp)
    have iht := ih (fun x hx => h x (by simp [hx]))
    by_cases hp : p a
    · simp [List.filter_cons, ha, hp, iht]
    · simp only [Bool.not_eq_true] at hp
      simp [List.filter_cons, ha, hp, iht]

theorem filter_key_single {α β : Type} [DecidableEq β] (f : α → β) (l : List α)
    (a : α) (k : β) (hnd : (l.map f).Nodup) (ha : a ∈ l) (hk : f a = k) :
    l.filter (fun x => decide (f x = k)) = [a] := by
  induction l with
  | nil => cases ha
  | cons b t ih =>
    rw [List.map_cons, List.nodup_cons] at hnd
    rcases List.mem_cons.mp ha with rfl | hat
    · have hrest : t.filter (fun x => decide (f x = k)) = [] := by
        rw [List.filter_eq_nil_iff]
        intro x hx
        simp only [decide_eq_true_eq]
        intro hfx
        exact hnd.1 (by rw [hk, ← hfx]; exact List.mem_map_of_mem f hx)
      simp [List.filter_cons, hk, hrest]
    · have hfb : ¬ (f b = k) := by
        intro hh
        exact hnd.1 (by rw [hh, ← hk]; exact List.mem_map_of_mem f hat)
      simp [List.filter_cons, hfb, ih hnd.2 hat]

theorem nodup_append_single {α : Type} {l : List α} {a : α}
    (h1 : l.Nodup) (h2 : a ∉ l) : (l ++ [a]).Nodup := by
  rw [List.nodup_append]
  refine ⟨h1, List.nodup_singleton a, ?_⟩
  intro x hx hxa
  rw [List.mem_singleton] at hxa
  subst hxa
  exact h2 hx

theorem filter_of_all_neg {α : Type} (p : α → Bool) (l : List α)
    (h : ∀ x ∈ l, p x = false) : l.filter p = [] := by
  rw [List.filter_eq_nil_iff]
  intro a ha
  simp [h a ha]

/-!
## C8 — the fallback generator is total and deterministic
-/

/-- C8: the fallback generator returns exactly three suggestion objects
for every gathered-metrics bundle, and — being a pure function of that
bundle — two runs over identical metrics produce identical output. -/
theorem fallback_exactly_three_deterministic :
    ∀ dbMetrics : DbMetrics,
      (generateFallbackSuggestions dbMetrics).length = 3 ∧
        generateFallbackSuggestions dbMetrics = generateFallbackSuggestions dbMetrics := by
  intro m
  exact ⟨rfl, rfl⟩

/-!
## C9 — cache set/get/invalidate laws
-/

/-- C9: with the cache store reachable, a `set` followed by a `get` of
the same key within the TTL returns the stored value unchanged, and a
`get` issued after an explicit invalidation of that key is a miss. -/
theorem cache_set_get_roundtrip_and_invalidate {α : Type}
    (c : CacheState α) (u : String) (v : α) (now now2 : Nat)
    (hopen : c.isOpen = true) (httl : now2 < now + CACHE_TTL) :
    getQueryContext now2 (setQueryContext now c u v) u = some v ∧
      getQueryContext now2 (invalidateUserCache (setQueryContext now c u v) u) u = none := by
  have hfilter :
      (c.entries.filter (fun e => e.1 ≠ getCacheKey u)).find?
        (fun e => e.1 = getCacheKey u) = none := by
    rw [List.find?_eq_none]
    intro e he
    have := (List.mem_filter.mp he).2
    simp only [ne_eq, decide_not, Bool.not_eq_eq_eq_not, Bool.not_true,
      decide_eq_false_iff_not] at this
    simp [this]
  constructor
  · simp only [setQueryContext, hopen, Bool.true_eq_false, if_false,
      getQueryContext]
    rw [List.find?_append]
    simp only [hfilter, Option.none_or]
    simp [List.find?_cons, httl]
  · simp only [setQueryContext, invalidateUserCache, hopen,
      Bool.true_eq_false, if_false, getQueryContext]
    have hnone :
        ((c.entries.filter (fun e => e.1 ≠ getCacheKey u) ++
            [(getCacheKey u, now + CACHE_TTL, v)]).filter
          (fun e => e.1 ≠ getCacheKey u)).find?
            (fun e => e.1 = getCacheKey u) = none := by
      rw [List.find?_eq_none]
      intro e he
      have := (List.mem_filter.mp he).2
      simp only [ne_eq, decide_not, Bool.not_eq_eq_eq_not, Bool.not_true,
        decide_eq_false_iff_not] at this
      simp [this]
    rw [hnone]

/-- C9 witness: a concrete round trip through the cache operations. -/
theorem cache_set_get_roundtrip_witness :
    getQueryContext 10 (setQueryContext 0 (⟨true, []⟩ : CacheState Nat) "alice" 7) "alice" = some 7 ∧
      getQueryContext 10
        (invalidateUserCache (setQueryContext 0 (⟨true, []⟩ : CacheState Nat) "alice" 7) "alice")
        "alice" = none :=
  cache_set_get_roundtrip_and_invalidate (⟨true, []⟩ : CacheState Nat) "alice" 7 0 10
    rfl (by decide)

/-!
## C10 — hash identity is repository-wide and text-only
-/

/-- C10: the content hash is a function of the raw query text alone —
the target-id argument the alert opt-in controller passes is discarded;
under the store's repository-wide unique index on the hash column (with
hashes consistent with the texts), two records sharing a query text are
one and the same record; and the opt-in's create for a second target
with an already-hashed text is rejected with a persistence error. -/
theorem queryHash_text_only_repo_unique :
    (∀ q id1 id2 : String, hashQueryCalled q id1 = hashQueryCalled q id2) ∧
      (∀ logs : List QueryLog, (logs.map (fun l => l.queryHash)).Nodup →
        (∀ l ∈ logs, l.queryHash = hashQuery (some l.query)) →
        ∀ l1 ∈ logs, ∀ l2 ∈ logs, l1.query = l2.query → l1 = l2) ∧
      (∀ (logs : List QueryLog) (nextId : Nat) (udb : UserDB) (q : String)
          (now : Nat) (l : QueryLog), l ∈ logs →
        l.queryHash = hashQuery (some q) →
        (∀ l2 ∈ logs, l2.userDbId ≠ udb.id) →
        enableQueryAlert logs nextId udb q now =
          Except.error "Unique constraint failed on the fields: (queryHash)") := by
  refine ⟨fun q id1 id2 => rfl, ?_, ?_⟩
  · intro logs hnd hcons l1 h1 l2 h2 hq
    have hh : l1.queryHash = l2.queryHash := by
      rw [hcons l1 h1, hcons l2 h2, hq]
    exact List.inj_on_of_nodup_map hnd h1 h2 hh
  · intro logs nextId udb q now l hl hhash hneq
    have hfind :
        logs.find? (fun l2 =>
          decide (l2.queryHash = hashQueryCalled q udb.id ∧ l2.userDbId = udb.id)) =
          none := by
      rw [List.find?_eq_none]
      intro x hx
      simp only [decide_eq_true_eq, not_and]
      intro _ hx2
      exact absurd hx2 (hneq x hx)
    have hany :
        logs.any (fun l2 =>
          l2.queryHash = (newAlertLog nextId udb.id q (hashQueryCalled q udb.id) now).queryHash) =
          true := by
      rw [List.any_eq_true]
      exact ⟨l, hl, by simp [newAlertLog, hashQueryCalled, hhash]⟩
    simp only [enableQueryAlert, hfind, prismaCreateQueryLog, hany, if_true]
    rfl

/-- C10 witness: the digest of `SELECT 1` ignores which target id rides
along, and with target `db-a` already holding a record hashed from
`SELECT 1`, the opt-in create for target `db-b` with that same text is
rejected. -/
theorem queryHash_text_only_repo_unique_witness :
    hashQueryCalled "SELECT 1" "db-a" = hashQueryCalled "SELECT 1" "db-b" ∧
      enableQueryAlert [recA] 5 udbB "SELECT 1" 9 =
        Except.error "Unique constraint failed on the fields: (queryHash)" :=
  ⟨queryHash_text_only_repo_unique.1 "SELECT 1" "db-a" "db-b",
   queryHash_text_only_repo_unique.2.2 [recA] 5 udbB "SELECT 1" 9 recA
     (List.mem_singleton.mpr rfl) rfl
     (fun l2 hl2 => by
       rw [List.mem_singleton] at hl2
       subst hl2
       intro hcontra
       exact absurd hcontra (by decide))⟩

/-!
## C4 — the schema snapshot collector and the cache
-/

theorem upsertTS_present_self (ts : List TableStructure) (fid uid tn : String)
    (td : TableData) (now : Nat) :
    ∃ t ∈ upsertTableStructure ts fid uid tn td now,
      t.userDbId = uid ∧ t.schemaName = "public" ∧ t.tableName = tn := by
  unfold upsertTableStructure
  by_cases hany : ts.any (fun t =>
      t.userDbId = uid ∧ t.schemaName = "public" ∧ t.tableName = tn)
  · rw [if_pos hany]
    obtain ⟨t, ht, hkey⟩ := List.any_eq_true.mp hany
    rw [decide_eq_true_eq] at hkey
    refine ⟨_, List.mem_map_of_mem _ ht, ?_⟩
    rw [if_pos hkey]
    exact ⟨hkey.1, hkey.2.1, hkey.2.2⟩
  · rw [if_neg hany]
    exact ⟨_, List.mem_append_right _ (List.mem_singleton.mpr rfl), rfl, rfl, rfl⟩

theorem upsertTS_present_mono (ts : List TableStructure) (fid uid' tn' : String)
    (td : TableData) (now : Nat) (uid tn : String)
    (h : ∃ t ∈ ts, t.userDbId = uid ∧ t.schemaName = "public" ∧ t.tableName = tn) :
    ∃ t ∈ upsertTableStructure ts fid uid' tn' td now,
      t.userDbId = uid ∧ t.schemaName = "public" ∧ t.tableName = tn := by
  obtain ⟨t, ht, hkey⟩ := h
  unfold upsertTableStructure
  by_cases hany : ts.any (fun x =>
      x.userDbId = uid' ∧ x.schemaName = "public" ∧ x.tableName = tn')
  · rw [if_pos hany]
    refine ⟨_, List.mem_map_of_mem _ ht, ?_⟩
    by_cases hc : t.userDbId = uid' ∧ t.schemaName = "public" ∧ t.tableName = tn'
    · rw [if_pos hc]
      exact ⟨hkey.1, hkey.2.1, hkey.2.2⟩
    · rw [if_neg hc]
      exact hkey
  · rw [if_neg hany]
    exact ⟨t, List.mem_append_left _ ht, hkey⟩

theorem collectTableData_present_mono (db : UserDB)
    (l : List (String × TableData)) (now : Nat) :
    ∀ (s : SystemState) (uid tn : String),
      (∃ t ∈ s.tables, t.userDbId = uid ∧ t.schemaName = "public" ∧ t.tableName = tn) →
      ∃ t ∈ (collectTableDataForDatabase db l now s).tables,
        t.userDbId = uid ∧ t.schemaName = "public" ∧ t.tableName = tn := by
  induction l with
  | nil => intro s uid tn h; exact h
  | cons p tl ih =>
    intro s uid tn h
    exact ih _ uid tn (upsertTS_present_mono _ _ _ _ _ _ _ _ h)

theorem collectTableData_cache_eq (db : UserDB)
    (l : List (String × TableData)) (now : Nat) :
    ∀ s : SystemState, (collectTableDataForDatabase db l now s).cache = s.cache := by
  induction l with
  | nil => intro s; rfl
  | cons p tl ih => intro s; exact ih _

/-- C4 (amended): the schema snapshot collector performs no cache
operation at all — after a run, the target's cache component is exactly
what it was (so a previously cached, unexpired entry still hits, rather
than missing), while a snapshot row keyed `(target, public, table)` is
present for every table it processed. -/
theorem schema_collector_upserts_without_invalidation
    (db : UserDB) (tablesData : List (String × TableData)) (now : Nat)
    (s : SystemState) :
    (collectTableDataForDatabase db tablesData now s).cache = s.cache ∧
      ∀ p ∈ tablesData,
        ∃ t ∈ (collectTableDataForDatabase db tablesData now s).tables,
          t.userDbId = db.id ∧ t.schemaName = "public" ∧ t.tableName = p.1 := by
  refine ⟨collectTableData_cache_eq db tablesData now s, ?_⟩
  induction tablesData generalizing s with
  | nil => intro p hp; cases hp
  | cons hd tl ih =>
    intro p hp
    rcases List.mem_cons.mp hp with rfl | hptl
    · exact collectTableData_present_mono db tl now _ db.id p.1
        (upsertTS_present_self _ _ _ _ _ _)
    · exact ih _ p hptl

/-- C4 witness: a concrete run over one table, starting from a state
with a live cache entry. -/
theorem schema_collector_upserts_without_invalidation_witness :
    (collectTableDataForDatabase dbA [("users", td0)] 5 baseState).cache =
        baseState.cache ∧
      ∃ t ∈ (collectTableDataForDatabase dbA [("users", td0)] 5 baseState).tables,
        t.userDbId = dbA.id ∧ t.schemaName = "public" ∧ t.tableName = "users" :=
  ⟨(schema_collector_upserts_without_invalidation dbA [("users", td0)] 5 baseState).1,
   (schema_collector_upserts_without_invalidation dbA [("users", td0)] 5 baseState).2
     ("users", td0) (List.mem_singleton.mpr rfl)⟩

/-- C4 counterexample: the claim says a snapshot write is followed by
cache invalidation, making a subsequent get for the target a miss.  On
the code, after `collectTableDataForDatabase` upserts the `users`
snapshot for `db-a`, a get of `alice`'s context (within its TTL) is
still a hit returning the pre-write bundle. -/
theorem schema_collector_cache_hit_counterexample :
    (∃ t ∈ (collectTableDataForDatabase dbA [("users", td0)] 5 baseState).tables,
        t.userDbId = "db-a" ∧ t.tableName = "users") ∧
      getQueryContext 500 (collectTableDataForDatabase dbA [("users", td0)] 5 baseState).cache
          "alice" = some ctx0 := by
  constructor
  · exact ⟨_, List.mem_singleton.mpr rfl, rfl, rfl⟩
  · rfl

/-!
## C3 — parse handling in suggestion synthesis
-/

theorem analyzeTarget_logs_tables (s : SystemState) (db : UserDB)
    (o : ParseOutcome) (now : Nat) :
    (analyzeTarget s db o now).logs = s.logs ∧
      (analyzeTarget s db o now).tables = s.tables := by
  unfold analyzeTarget
  by_cases h : (gatherDatabaseMetrics s db.id).hasData = false
  · simp [h]
  · cases o <;> simp [h]

/-- C3 (amended): with data present for the target, a parse failure
substitutes the deterministic fallback (which has exactly three
elements); a parsed array of exactly three elements is stored as-is;
but a parsed array of any other length is *not* replaced by the
fallback — it is truncated with `slice(0, 3)` and stored, so a
suggestion set with fewer than three elements can be persisted. -/
theorem synthesis_parse_handling (s : SystemState) (db : UserDB) (now : Nat)
    (hdata : (gatherDatabaseMetrics s db.id).hasData = true) :
    ((analyzeTarget s db ParseOutcome.fail now).suggestions =
        upsertSuggestions s.suggestions db.id
          (generateFallbackSuggestions (gatherDatabaseMetrics s db.id)) now ∧
      (generateFallbackSuggestions (gatherDatabaseMetrics s db.id)).length = 3) ∧
      (∀ l : List Suggestion, l.length = 3 →
        (analyzeTarget s db (ParseOutcome.arr l) now).suggestions =
          upsertSuggestions s.suggestions db.id l now) ∧
      (∀ l : List Suggestion, l.length ≠ 3 →
        (analyzeTarget s db (ParseOutcome.arr l) now).suggestions =
          upsertSuggestions s.suggestions db.id (l.take 3) now) := by
  have hnd : ¬ ((gatherDatabaseMetrics s db.id).hasData = false) := by
    rw [hdata]; exact Bool.true_eq_false ▸ (by simp)
  refine ⟨⟨?_, rfl⟩, ?_, ?_⟩
  · unfold analyzeTarget
    rw [if_neg hnd]
    rfl
  · intro l hl
    unfold analyzeTarget
    rw [if_neg hnd]
    simp [hl]
  · intro l hl
    unfold analyzeTarget
    rw [if_neg hnd]
    simp [hl]

/-- C3 counterexample: the claim says a successful parse that does not
yield exactly three elements triggers the fallback, and that no stored
set ever has fewer than three suggestions.  On the code, feeding the
engine a response parsed as the two-element array `[sgA, sgB]` for a
target with data stores that two-element set verbatim. -/
theorem synthesis_two_element_set_stored_counterexample :
    findSuggestionSet
        (analyzeTarget { baseState with logs := [lowLog] } dbA
          (ParseOutcome.arr [sgA, sgB]) 7) "db-a" =
      some { userDbId := "db-a", suggestions := [sgA, sgB], updatedAt := 7 } ∧
      ([sgA, sgB] : List Suggestion).length ≠ 3 := by
  constructor
  · rfl
  · decide

/-- C3 witness: the amended behaviour at a concrete state with data. -/
theorem synthesis_parse_handling_witness :
    (analyzeTarget { baseState with logs := [lowLog] } dbA ParseOutcome.fail 7).suggestions =
        upsertSuggestions baseState.suggestions "db-a"
          (generateFallbackSuggestions
            (gatherDatabaseMetrics { baseState with logs := [lowLog] } "db-a")) 7 ∧
      (analyzeTarget { baseState with logs := [lowLog] } dbA
          (ParseOutcome.arr [sgA, sgB]) 7).suggestions =
        upsertSuggestions baseState.suggestions "db-a" ([sgA, sgB].take 3) 7 :=
  ⟨(synthesis_parse_handling { baseState with logs := [lowLog] } dbA 7 rfl).1.1,
   (synthesis_parse_handling { baseState with logs := [lowLog] } dbA 7 rfl).2.2
     [sgA, sgB] (by decide)⟩

/-!
## C5 — targets without data are skipped, targets with any data are not
-/

theorem upsertSuggestions_find_other (sets : List Top3Suggestions)
    (uid' : String) (sugg : List Suggestion) (now : Nat) (uid : String)
    (h : uid' ≠ uid) :
    (upsertSuggestions sets uid' sugg now).find? (fun t => t.userDbId = uid) =
      sets.find? (fun t => t.userDbId = uid) := by
  unfold upsertSuggestions
  by_cases hany : sets.any (fun t => t.userDbId = uid')
  · rw [if_pos hany]
    apply find?_map_fix
    · intro x _
      by_cases hx : x.userDbId = uid'
      · simp [hx]
      · rw [if_neg hx]
    · intro x _ hpx
      rw [decide_eq_true_eq] at hpx
      rw [if_neg (by rw [hpx]; exact Ne.symm h)]
  · rw [if_neg hany]
    apply find?_append_single
    simp only [List.find?, decide_eq_false_iff_not]
    exact h

theorem findSuggestionSet_analyzeTarget_other (s : SystemState) (db : UserDB)
    (o : ParseOutcome) (now : Nat) (uid : String) (h : db.id ≠ uid) :
    findSuggestionSet (analyzeTarget s db o now) uid = findSuggestionSet s uid := by
  unfold findSuggestionSet analyzeTarget
  by_cases hd : (gatherDatabaseMetrics s db.id).hasData = false
  · simp [hd]
  · cases o with
    | fail => simp only [hd, if_false]; exact upsertSuggestions_find_other _ _ _ _ _ h
    | arr l => simp only [hd, if_false]; exact upsertSuggestions_find_other _ _ _ _ _ h
    | nonArray => simp [hd]

theorem analyzeFold_find_frame (outcomeFor : String → ParseOutcome) (now : Nat)
    (uid : String) :
    ∀ (dbs : List UserDB) (s : SystemState),
      s.logs.filter (fun l => l.userDbId = uid) = [] →
      s.tables.filter (fun t => t.userDbId = uid) = [] →
      findSuggestionSet
          (dbs.foldl (fun st db => analyzeTarget st db (outcomeFor db.id) now) s) uid =
        findSuggestionSet s uid := by
  intro dbs
  induction dbs with
  | nil => intro s _ _; rfl
  | cons db tl ih =>
    intro s hlogs htables
    have hpres := analyzeTarget_logs_tables s db (outcomeFor db.id) now
    have hstep :
        findSuggestionSet (analyzeTarget s db (outcomeFor db.id) now) uid =
          findSuggestionSet s uid := by
      by_cases hid : db.id = uid
      · unfold analyzeTarget
        have hnodata : (gatherDatabaseMetrics s db.id).hasData = false := by
          unfold gatherDatabaseMetrics
          rw [hid, hlogs, htables]
          rfl
        rw [if_pos hnodata]
      · exact findSuggestionSet_analyzeTarget_other s db (outcomeFor db.id) now uid hid
    rw [List.foldl_cons,
      ih (analyzeTarget s db (outcomeFor db.id) now)
        (by rw [hpres.1]; exact hlogs) (by rw [hpres.2]; exact htables),
      hstep]

/-- C5 (amended): a target is skipped by a synthesis run exactly when
it has *no* query records and *no* table structures at all — the code
applies no significance-threshold filter.  For such a target the
suggestion set is left untouched (absent stays absent, an existing set
stays as it was); a target with even one arbitrarily fast query record
is synthesized and gets a set upserted. -/
theorem synthesis_dataless_target_untouched (outcomeFor : String → ParseOutcome)
    (now : Nat) (s : SystemState) (uid : String)
    (hlogs : s.logs.filter (fun l => l.userDbId = uid) = [])
    (htables : s.tables.filter (fun t => t.userDbId = uid) = []) :
    findSuggestionSet (analyzeAndUpdateSuggestions outcomeFor now s) uid =
      findSuggestionSet s uid :=
  analyzeFold_find_frame outcomeFor now uid _ s hlogs htables

/-- C5 witness: a concrete dataless target keeps its (absent) set. -/
theorem synthesis_dataless_target_untouched_witness :
    findSuggestionSet
        (analyzeAndUpdateSuggestions (fun _ => ParseOutcome.fail) 7 baseState) "db-a" =
      findSuggestionSet baseState "db-a" :=
  synthesis_dataless_target_untouched (fun _ => ParseOutcome.fail) 7 baseState "db-a"
    rfl rfl

/-!
## The alert poll, characterized

`alertFold_spec` rewrites the alert engine's rows loop as a function of
the critical matched rows alone: they drive the metric updates, the
cache invalidations, the appended events (ranked consecutively) and the
accumulated critical batch; everything else is untouched.
-/

theorem find?_append_left_none {α : Type} (l1 l2 : List α) (p : α → Bool)
    (h : l1.find? p = none) : (l1 ++ l2).find? p = l2.find? p := by
  induction l1 with
  | nil => rfl
  | cons a t ih =>
    rw [List.find?_cons] at h
    rcases hpa : p a with hf | ht
    · rw [hpa] at h
      simp only [List.cons_append, List.find?_cons, hpa]
      exact ih h
    · rw [hpa] at h
      cases h

theorem invalidateUserCache_idem {α : Type} (c : CacheState α) (u : String) :
    invalidateUserCache (invalidateUserCache c u) u = invalidateUserCache c u := by
  rcases c with ⟨o, es⟩
  cases o with
  | false => rfl
  | true =>
    simp only [invalidateUserCache]
    simp only [Bool.true_eq_false, if_false, List.filter_filter]
    congr 1
    exact List.filter_congr (fun a _ => by rw [Bool.and_self])

theorem invalidateDatabaseCache_idem {α : Type} (userDbs : List UserDB)
    (c : CacheState α) (uid : String) :
    invalidateDatabaseCache userDbs (invalidateDatabaseCache userDbs c uid) uid =
      invalidateDatabaseCache userDbs c uid := by
  unfold invalidateDatabaseCache
  cases h : userDbs.find? (fun u => u.id = uid) with
  | none => rfl
  | some u => exact invalidateUserCache_idem c u.username

theorem alertFold_spec (db : UserDB) (qmap : List (String × QueryLog)) (now : Nat) :
    ∀ (rows : List AlertRow) (s : SystemState) (cs : List QueryObj),
      rows.foldl (processAlertRow db qmap now) (s, cs) =
        ({ s with
           logs := (critRows qmap now rows).foldl (updateForRow qmap now) s.logs,
           cache := if (critRows qmap now rows).isEmpty then s.cache
             else invalidateDatabaseCache s.userDbs s.cache db.id,
           topSlow := s.topSlow ++ mkEvents db now cs.length (critRows qmap now rows) },
         cs ++ (critRows qmap now rows).map (objOfRow now)) := by
  intro rows
  induction rows with
  | nil => intro s cs; simp [critRows, mkEvents]
  | cons r rs ih =>
    intro s cs
    rw [List.foldl_cons]
    by_cases hm : matchedCritical qmap now r = true
    · obtain ⟨hsome, hcrit⟩ : (mapGet qmap (jsOrElse r.query "")).isSome = true ∧
          isCriticalQuery (objOfRow now r) = true := by
        simpa [matchedCritical] using hm
      obtain ⟨aq, haq⟩ := Option.isSome_iff_exists.mp hsome
      have hstep : processAlertRow db qmap now (s, cs) r =
          ({ s with
             logs := s.logs.map (fun l =>
               if l.id = aq.id then
                 { l with
                   calls := (objOfRow now r).calls,
                   totalTimeMs := (objOfRow now r).totalTimeMs,
                   meanTimeMs := (objOfRow now r).meanTimeMs,
                   rowsReturned := (objOfRow now r).rowsReturned,
                   collectedAt := now }
               else l),
             cache := invalidateDatabaseCache s.userDbs s.cache db.id,
             topSlow := s.topSlow ++
               [eventOf db now (cs ++ [objOfRow now r]).length (objOfRow now r)] },
           cs ++ [objOfRow now r]) := by
        simp only [processAlertRow, haq, hcrit, if_true]
      have hcr : critRows qmap now (r :: rs) = r :: critRows qmap now rs := by
        simp [critRows, List.filter_cons, hm]
      have hupd : updateForRow qmap now s.logs r =
          s.logs.map (fun l =>
            if l.id = aq.id then
              { l with
                calls := (objOfRow now r).calls,
                totalTimeMs := (objOfRow now r).totalTimeMs,
                meanTimeMs := (objOfRow now r).meanTimeMs,
                rowsReturned := (objOfRow now r).rowsReturned,
                collectedAt := now }
            else l) := by
        simp only [updateForRow, haq]
      rw [hstep, ih, hcr]
      refine congrArg₂ Prod.mk ?_ ?_
      · have hlen : (cs ++ [objOfRow now r]).length = cs.length + 1 := by
          simp
        rw [hlen]
        simp only [List.foldl_cons, hupd, List.isEmpty_cons, mkEvents]
        by_cases hemp : (critRows qmap now rs).isEmpty
        · simp [hemp, List.append_assoc]
        · simp only [hemp, Bool.false_eq_true, if_false]
          rw [invalidateDatabaseCache_idem]
          simp [List.append_assoc]
      · simp [List.append_assoc]
    · have hstep : processAlertRow db qmap now (s, cs) r = (s, cs) := by
        rcases hma : mapGet qmap (jsOrElse r.query "") with _ | aq
        · simp [processAlertRow, hma]
        · have hic : isCriticalQuery (objOfRow now r) = false := by
            rcases hic2 : isCriticalQuery (objOfRow now r) with hf | ht
            · rfl
            · exact absurd (by unfold matchedCritical; rw [hma, hic2]; rfl) hm
          simp [processAlertRow, hma, hic]
      have hcr : critRows qmap now (r :: rs) = critRows qmap now rs := by
        simp [critRows, List.filter_cons, hm]
      rw [hstep, ih, hcr]

/-- C5 counterexample: the claim says a target with no rows above the
significance threshold is skipped, leaving its suggestion set absent.
On the code, a target whose only record has a 5 ms mean (far below the
1000 ms reference threshold) is synthesized anyway: a run creates a
suggestion set where none existed. -/
theorem synthesis_below_threshold_not_skipped_counterexample :
    lowLog.meanTimeMs < 1000 ∧
      findSuggestionSet { baseState with logs := [lowLog] } "db-a" = none ∧
      findSuggestionSet
          (analyzeAndUpdateSuggestions (fun _ => ParseOutcome.arr [sgA, sgB, sgC]) 7
            { baseState with logs := [lowLog] }) "db-a" =
        some { userDbId := "db-a", suggestions := [sgA, sgB, sgC], updatedAt := 7 } := by
  refine ⟨by decide, rfl, ?_⟩
  rfl

theorem collectAlertForDb_spec (db : UserDB) (queries : List QueryLog)
    (rows : List AlertRow) (now : Nat) (s : SystemState) :
    collectAlertForDb db queries rows now s =
      (let qmap := buildQueryMap queries
       let cr := critRows qmap now rows
       let s1 : SystemState :=
         { s with
           logs := cr.foldl (updateForRow qmap now) s.logs,
           cache := if cr.isEmpty then s.cache
             else invalidateDatabaseCache s.userDbs s.cache db.id,
           topSlow := s.topSlow ++ mkEvents db now 0 cr }
       if 0 < cr.length then
         { s1 with emails := s1.emails ++
             [⟨cr.map (objOfRow now), dbInfoOf db, HARDCODED_EMAIL⟩] }
       else s1) := by
  simp only [collectAlertForDb]
  rw [alertFold_spec]
  simp [List.length_map]

theorem mkEvents_length (db : UserDB) (now : Nat) :
    ∀ (rows : List AlertRow) (k : Nat), (mkEvents db now k rows).length = rows.length := by
  intro rows
  induction rows with
  | nil => intro k; rfl
  | cons r rs ih => intro k; simp [mkEvents, ih]

theorem mkEvents_map_rank (db : UserDB) (now : Nat) :
    ∀ (rows : List AlertRow) (k : Nat),
      (mkEvents db now k rows).map (fun e => e.rank) =
        List.range' (k + 1) rows.length := by
  intro rows
  induction rows with
  | nil => intro k; rfl
  | cons r rs ih =>
    intro k
    simp only [mkEvents, List.map_cons, List.length_cons, ih, eventOf]
    simp [List.range']

theorem mkEvents_mem (db : UserDB) (now : Nat) :
    ∀ (rows : List AlertRow) (k : Nat) (e : TopSlowQuery),
      e ∈ mkEvents db now k rows →
      e.userDbId = db.id ∧ ∃ r ∈ rows, e.query = jsOrElse r.query "" := by
  intro rows
  induction rows with
  | nil => intro k e he; cases he
  | cons r rs ih =>
    intro k e he
    rcases List.mem_cons.mp he with rfl | hers
    · exact ⟨rfl, r, List.mem_cons_self r rs, rfl⟩
    · obtain ⟨h1, r2, hr2, h2⟩ := ih (k + 1) e hers
      exact ⟨h1, r2, List.mem_cons_of_mem r hr2, h2⟩

/-!
## C7 — one event per critical row, one dispatch per non-empty batch
-/

/-- C7: in a single alert poll for a target, exactly one event is
appended per critical matched row — the events are in row order and
their ranks are the consecutive 1-based positions `1, …, n` among the
critical rows of the poll — and the notification dispatcher receives
exactly one batch carrying all of them when `n > 0`, and is not invoked
at all when `n = 0`. -/
theorem alert_poll_one_event_per_critical_row_single_dispatch
    (db : UserDB) (queries : List QueryLog) (rows : List AlertRow) (now : Nat)
    (s : SystemState) :
    (collectAlertForDb db queries rows now s).topSlow =
        s.topSlow ++ mkEvents db now 0 (critRows (buildQueryMap queries) now rows) ∧
      (mkEvents db now 0 (critRows (buildQueryMap queries) now rows)).length =
        (critRows (buildQueryMap queries) now rows).length ∧
      (mkEvents db now 0 (critRows (buildQueryMap queries) now rows)).map
          (fun e => e.rank) =
        List.range' 1 (critRows (buildQueryMap queries) now rows).length ∧
      (critRows (buildQueryMap queries) now rows ≠ [] →
        (collectAlertForDb db queries rows now s).emails =
          s.emails ++ [⟨(critRows (buildQueryMap queries) now rows).map (objOfRow now),
            dbInfoOf db, HARDCODED_EMAIL⟩]) ∧
      (critRows (buildQueryMap queries) now rows = [] →
        (collectAlertForDb db queries rows now s).emails = s.emails) := by
  rw [collectAlertForDb_spec]
  refine ⟨?_, mkEvents_length db now _ 0, mkEvents_map_rank db now _ 0, ?_, ?_⟩
  · by_cases h : 0 < (critRows (buildQueryMap queries) now rows).length
    · simp [h]
    · simp [h]
  · intro hne
    have h : 0 < (critRows (buildQueryMap queries) now rows).length :=
      List.length_pos.mpr hne
    simp [h]
  · intro heq
    simp [heq, mkEvents]

/-- C7 witness: a poll returning one matched 600 ms row appends exactly
its event and dispatches exactly one batch carrying it. -/
theorem alert_poll_one_event_single_dispatch_witness :
    (collectAlertForDb dbA [alertLog1] [critRow] 11 baseState).topSlow =
        baseState.topSlow ++
          mkEvents dbA 11 0 (critRows (buildQueryMap [alertLog1]) 11 [critRow]) ∧
      (collectAlertForDb dbA [alertLog1] [critRow] 11 baseState).emails =
        baseState.emails ++
          [⟨(critRows (buildQueryMap [alertLog1]) 11 [critRow]).map (objOfRow 11),
            dbInfoOf dbA, HARDCODED_EMAIL⟩] :=
  ⟨(alert_poll_one_event_per_critical_row_single_dispatch dbA [alertLog1] [critRow]
      11 baseState).1,
   (alert_poll_one_event_per_critical_row_single_dispatch dbA [alertLog1] [critRow]
      11 baseState).2.2.2.1 (by decide)⟩

/-!
## C2 — metric updates and cache invalidation happen only in the
critical branch
-/

/-- C2 (amended): during an alert poll the engine updates a matched
record's metrics and invalidates the target's cache entry only for
rows whose mean time exceeds the 500 ms critical threshold.  A poll
whose matched rows are all sub-threshold is a complete no-op on the
store and the cache; a poll with exactly one critical matched row
overwrites that record's metrics and deletes the target's cache
entry. -/
theorem alert_update_and_invalidate_only_critical (db : UserDB)
    (queries : List QueryLog) (rows : List AlertRow) (now : Nat)
    (s : SystemState) :
    (critRows (buildQueryMap queries) now rows = [] →
      collectAlertForDb db queries rows now s = s) ∧
    (∀ (row : AlertRow) (aq : QueryLog),
      critRows (buildQueryMap queries) now rows = [row] →
      mapGet (buildQueryMap queries) (jsOrElse row.query "") = some aq →
      (collectAlertForDb db queries rows now s).logs =
          s.logs.map (fun l =>
            if l.id = aq.id then
              { l with
                calls := (objOfRow now row).calls,
                totalTimeMs := (objOfRow now row).totalTimeMs,
                meanTimeMs := (objOfRow now row).meanTimeMs,
                rowsReturned := (objOfRow now row).rowsReturned,
                collectedAt := now }
            else l) ∧
        (collectAlertForDb db queries rows now s).cache =
          invalidateDatabaseCache s.userDbs s.cache db.id) := by
  constructor
  · intro h
    rw [collectAlertForDb_spec]
    simp [h, mkEvents]
  · intro row aq hcr haq
    rw [collectAlertForDb_spec]
    simp only [hcr]
    constructor
    · simp [updateForRow, haq]
    · simp

/-- C2 witness: a concrete sub-threshold poll is a no-op, and a
concrete critical poll invalidates the target's cache entry. -/
theorem alert_update_and_invalidate_only_critical_witness :
    collectAlertForDb dbA [alertLog1] [slowRow] 11
        { baseState with logs := [alertLog1] } =
      { baseState with logs := [alertLog1] } ∧
      (collectAlertForDb dbA [alertLog1] [critRow] 11
          { baseState with logs := [alertLog1] }).cache =
        invalidateDatabaseCache
          ({ baseState with logs := [alertLog1] } : SystemState).userDbs
          ({ baseState with logs := [alertLog1] } : SystemState).cache dbA.id :=
  ⟨(alert_update_and_invalidate_only_critical dbA [alertLog1] [slowRow] 11
      { baseState with logs := [alertLog1] }).1 (by decide),
   ((alert_update_and_invalidate_only_critical dbA [alertLog1] [critRow] 11
      { baseState with logs := [alertLog1] }).2 critRow alertLog1 (by decide)
     (by decide)).2⟩

/-- C2 counterexample: the claim says every matched row's record is
updated and the cache invalidated regardless of the threshold.  On the
code, a matched 100 ms row (below 500 ms) leaves the whole state —
record metrics and cache entry included — exactly as it was: the
record still reports 0 calls (not the row's 7) and the cached context
still hits. -/
theorem alert_subthreshold_matched_row_noop_counterexample :
    mapGet (buildQueryMap [alertLog1]) (jsOrElse slowRow.query "") = some alertLog1 ∧
      (objOfRow 11 slowRow).meanTimeMs ≤ CRITICAL_QUERY_THRESHOLD_MS ∧
      collectAlertForDb dbA [alertLog1] [slowRow] 11
          { baseState with logs := [alertLog1] } =
        { baseState with logs := [alertLog1] } ∧
      getQueryContext 500
          (collectAlertForDb dbA [alertLog1] [slowRow] 11
            { baseState with logs := [alertLog1] }).cache "alice" = some ctx0 := by
  refine ⟨rfl, by decide, rfl, rfl⟩

/-!
## C6 — alerts-disabled records never receive events
-/

theorem mapSet_mem (m : List (String × QueryLog)) (k : String) (v : QueryLog) :
    ∀ p ∈ mapSet m k v, p ∈ m ∨ p = (k, v) := by
  intro p hp
  unfold mapSet at hp
  by_cases hany : m.any (fun q => q.1 = k)
  · rw [if_pos hany] at hp
    obtain ⟨x, hx, hfx⟩ := List.mem_map.mp hp
    by_cases hxk : x.1 = k
    · rw [if_pos hxk] at hfx
      exact Or.inr hfx.symm
    · rw [if_neg hxk] at hfx
      exact Or.inl (hfx ▸ hx)
  · rw [if_neg hany] at hp
    rcases List.mem_append.mp hp with h | h
    · exact Or.inl h
    · exact Or.inr (List.mem_singleton.mp h)

theorem buildQueryMap_mem_aux :
    ∀ (qs : List QueryLog) (m : List (String × QueryLog)) (p : String × QueryLog),
      p ∈ qs.foldl (fun m q => mapSet m q.query q) m →
      p ∈ m ∨ ∃ q ∈ qs, p = (q.query, q) := by
  intro qs
  induction qs with
  | nil => intro m p hp; exact Or.inl hp
  | cons q tl ih =>
    intro m p hp
    rw [List.foldl_cons] at hp
    rcases ih (mapSet m q.query q) p hp with hm | ⟨q2, hq2, hpq2⟩
    · rcases mapSet_mem m q.query q p hm with h | h
      · exact Or.inl h
      · exact Or.inr ⟨q, List.mem_cons_self q tl, h⟩
    · exact Or.inr ⟨q2, List.mem_cons_of_mem q hq2, hpq2⟩

theorem mapGet_buildQueryMap_origin (qs : List QueryLog) (t : String)
    (v : QueryLog) (h : mapGet (buildQueryMap qs) t = some v) :
    v ∈ qs ∧ v.query = t := by
  unfold mapGet at h
  rcases hf : (buildQueryMap qs).find? (fun p => p.1 = t) with _ | p
  · rw [hf] at h; cases h
  · rw [hf] at h
    have hpv : p.2 = v := by simpa using h
    have hpt : p.1 = t := by simpa using List.find?_some hf
    have hpmem := List.mem_of_find?_eq_some hf
    rcases buildQueryMap_mem_aux qs [] p hpmem with hnil | ⟨q, hq, hpq⟩
    · cases hnil
    · subst hpq
      simp only at hpv hpt
      exact ⟨hpv ▸ hq, hpv ▸ hpt⟩

theorem collectAlertForDb_events_origin (db : UserDB) (queries : List QueryLog)
    (rows : List AlertRow) (now : Nat) (st : SystemState) :
    ∀ e ∈ (collectAlertForDb db queries rows now st).topSlow,
      e ∈ st.topSlow ∨
        (e.userDbId = db.id ∧ ∃ l ∈ queries, l.query = e.query) := by
  rw [collectAlertForDb_spec]
  intro e he
  have he2 : e ∈ st.topSlow ++
      mkEvents db now 0 (critRows (buildQueryMap queries) now rows) := by
    by_cases h : 0 < (critRows (buildQueryMap queries) now rows).length
    · simpa [h] using he
    · simpa [h] using he
  rcases List.mem_append.mp he2 with h | h
  · exact Or.inl h
  · right
    obtain ⟨huid, r, hr, hq⟩ := mkEvents_mem db now _ 0 e h
    refine ⟨huid, ?_⟩
    have hmc : matchedCritical (buildQueryMap queries) now r = true :=
      List.of_mem_filter hr
    obtain ⟨hsome, _⟩ : (mapGet (buildQueryMap queries) (jsOrElse r.query "")).isSome = true ∧
        isCriticalQuery (objOfRow now r) = true := by
      simpa [matchedCritical] using hmc
    obtain ⟨aq, haq⟩ := Option.isSome_iff_exists.mp hsome
    obtain ⟨haqmem, haqq⟩ := mapGet_buildQueryMap_origin queries _ aq haq
    exact ⟨aq, haqmem, by rw [haqq, hq]⟩

theorem collectAlert_fold_origin (rowsFor : String → List AlertRow) (now : Nat)
    (s0 : SystemState) (alertQs : List QueryLog)
    (halert : ∀ l ∈ alertQs, l ∈ s0.logs ∧ l.alertsEnabled = true) :
    ∀ (ids : List String) (st : SystemState),
      (∀ e ∈ st.topSlow, e ∈ s0.topSlow ∨ ∃ l ∈ s0.logs,
        l.alertsEnabled = true ∧ l.query = e.query ∧ l.userDbId = e.userDbId) →
      ∀ e ∈ (ids.foldl (fun st dbId =>
          match s0.userDbs.find? (fun u => u.id = dbId) with
          | none => st
          | some db => collectAlertForDb db
              (alertQs.filter (fun l => l.userDbId = dbId)) (rowsFor dbId) now st)
        st).topSlow,
        e ∈ s0.topSlow ∨ ∃ l ∈ s0.logs,
          l.alertsEnabled = true ∧ l.query = e.query ∧ l.userDbId = e.userDbId := by
  intro ids
  induction ids with
  | nil => intro st hst e he; exact hst e he
  | cons dbId tl ih =>
    intro st hst
    rw [List.foldl_cons]
    apply ih
    rcases hfind : s0.userDbs.find? (fun u => u.id = dbId) with _ | db
    · simpa [hfind] using hst
    · have hdbid : db.id = dbId := by simpa using List.find?_some hfind
      intro e he
      simp only [hfind] at he
      rcases collectAlertForDb_events_origin db
          (alertQs.filter (fun l => l.userDbId = dbId)) (rowsFor dbId) now st e he
        with h | ⟨huid, l, hl, hlq⟩
      · exact hst e h
      · right
        have hl2 := List.mem_filter.mp hl
        have hluid : l.userDbId = dbId := by simpa using hl2.2
        obtain ⟨hmem, hen⟩ := halert l hl2.1
        exact ⟨l, hmem, hen, hlq, by rw [hluid, ← hdbid, ← huid]⟩

theorem collectAlertQueries_events_origin (rowsFor : String → List AlertRow)
    (now : Nat) (s : SystemState) :
    ∀ e ∈ (collectAlertQueries rowsFor now s).topSlow,
      e ∈ s.topSlow ∨ ∃ l ∈ s.logs,
        l.alertsEnabled = true ∧ l.query = e.query ∧ l.userDbId = e.userDbId := by
  unfold collectAlertQueries
  exact collectAlert_fold_origin rowsFor now s
    (s.logs.filter (fun l => l.alertsEnabled))
    (fun l hl => ⟨(List.mem_filter.mp hl).1, by
      simpa using (List.mem_filter.mp hl).2⟩)
    _ s (fun e he => Or.inl he)

/-- C6: an alert poll only ever creates events for alert-enabled
records: every event present after a poll either predates it or carries
the target and text of some record that had `alertsEnabled = true`
before the poll.  Hence, for a record with `alertsEnabled = false` that
is the only record with its `(target, text)` identity, no event with
its identity is ever created — no matter how large its mean time is. -/
theorem disabled_record_never_gets_event (rowsFor : String → List AlertRow)
    (now : Nat) (s : SystemState) (r : QueryLog)
    (_hr : r ∈ s.logs) (hdis : r.alertsEnabled = false)
    (huniq : ∀ l ∈ s.logs, l.userDbId = r.userDbId → l.query = r.query → l = r) :
    ∀ e ∈ (collectAlertQueries rowsFor now s).topSlow,
      e ∈ s.topSlow ∨ ¬ (e.userDbId = r.userDbId ∧ e.query = r.query) := by
  intro e he
  rcases collectAlertQueries_events_origin rowsFor now s e he
    with h | ⟨l, hl, hen, hq, hid⟩
  · exact Or.inl h
  · right
    rintro ⟨hud, hqq⟩
    have hlr : l = r := huniq l hl (hid.trans hud) (hq.trans hqq)
    rw [hlr] at hen
    rw [hdis] at hen
    cases hen

/-- C6 witness: with an enabled record for `SELECT 1` and a disabled
10-second record for `SELECT 3` in the store, the event the poll
creates is not for the disabled record. -/
theorem disabled_record_never_gets_event_witness :
    eventOf dbA 13 1 (objOfRow 13 critRow) ∈
        (collectAlertQueries (fun _ => [critRow]) 13
          { baseState with logs := [alertLog1, disabledLog] }).topSlow ∧
      (eventOf dbA 13 1 (objOfRow 13 critRow) ∈
          ({ baseState with logs := [alertLog1, disabledLog] } : SystemState).topSlow ∨
        ¬ ((eventOf dbA 13 1 (objOfRow 13 critRow)).userDbId = disabledLog.userDbId ∧
           (eventOf dbA 13 1 (objOfRow 13 critRow)).query = disabledLog.query)) :=
  ⟨by decide,
   disabled_record_never_gets_event (fun _ => [critRow]) 13
     { baseState with logs := [alertLog1, disabledLog] } disabledLog
     (by decide) rfl (by decide)
     (eventOf dbA 13 1 (objOfRow 13 critRow)) (by decide)⟩

/-!
## C1 — the collection poll's upsert

The per-row step of `collectLogs` either overwrites the unique record
under the row's `(target, hash)` key or creates it; in both cases
exactly one record carries the key afterwards, holding the row's
metric values, records under other keys are untouched, and the store
invariant is preserved.
-/

theorem keypred_iff (l : QueryLog) (uid h : String) :
    (decide (l.userDbId = uid ∧ l.queryHash = h) = true) ↔ logKey l = (uid, h) := by
  simp [logKey, Prod.ext_iff]

theorem processLogRow_userDbs (db : UserDB) (now : Nat) (s : SystemState)
    (row : StatRow) :
    (processLogRow db now s row).userDbs = s.userDbs := by
  simp only [processLogRow]
  split
  · rfl
  · split <;> rfl

theorem processLogRow_own_key (db : UserDB) (now : Nat) (s : SystemState)
    (row : StatRow) (hinv : StoreInv s)
    (hnf : NoForeignHash s db.id (hashOfRow row)) :
    ∃ l, keyFilter (processLogRow db now s row).logs db.id (hashOfRow row) = [l] ∧
      MetricsMatch l (dataOfRow now row) := by
  obtain ⟨hids, _, hkeys⟩ := hinv
  have hdq : (dataOfRow now row).queryHash = hashOfRow row := rfl
  simp only [processLogRow, keyFilter]
  rcases hf : s.logs.find? (fun l => decide (l.userDbId = db.id ∧
      l.queryHash = (dataOfRow now row).queryHash)) with _ | e
  · -- create: the no-foreign-hash hypothesis rules out a unique-index
    -- rejection, so the insert goes through
    simp only [hf]
    have hnotany : ¬ (s.logs.any (fun l => l.queryHash =
        (newLogOf s.nextLogId db.id (jsOrElse row.query "")
          (dataOfRow now row)).queryHash) = true) := by
      intro hb
      obtain ⟨l, hl, hpl⟩ := List.any_eq_true.mp hb
      simp only [decide_eq_true_eq] at hpl
      have hlh : l.queryHash = hashOfRow row := by
        rw [hpl]
        exact hdq
      have hnot := List.find?_eq_none.mp hf l hl
      rw [decide_eq_true_eq] at hnot
      exact hnot ⟨hnf l hl hlh, by rw [hlh]; exact hdq.symm⟩
    have hcreate : prismaCreateQueryLog s.logs
        (newLogOf s.nextLogId db.id (jsOrElse row.query "") (dataOfRow now row)) =
        Except.ok (s.logs ++
          [newLogOf s.nextLogId db.id (jsOrElse row.query "") (dataOfRow now row)]) := by
      unfold prismaCreateQueryLog
      rw [if_neg hnotany]
    simp only [hcreate]
    have hnone : ∀ l ∈ s.logs,
        (fun l => decide (l.userDbId = db.id ∧ l.queryHash = hashOfRow row)) l = false := by
      intro l hl
      have := List.find?_eq_none.mp hf l hl
      rw [hdq] at this
      simpa using this
    rw [List.filter_append, filter_of_all_neg _ _ hnone]
    refine ⟨newLogOf s.nextLogId db.id (jsOrElse row.query "") (dataOfRow now row),
      ?_, rfl, rfl, rfl, rfl, rfl, rfl, rfl⟩
    simp [newLogOf, hdq]
  · -- update
    simp only [hf]
    have hemem := List.mem_of_find?_eq_some hf
    have hpe : e.userDbId = db.id ∧ e.queryHash = hashOfRow row := by
      have := List.find?_some hf
      rw [hdq] at this
      simpa using this
    have hidinj : ∀ l ∈ s.logs, l.id = e.id → l = e := by
      intro l hl hid
      exact List.inj_on_of_nodup_map hids hl hemem hid
    have hfid : ∀ l ∈ s.logs,
        logKey (if l.id = e.id then applyData l (dataOfRow now row) else l) = logKey l := by
      intro l hl
      by_cases hid : l.id = e.id
      · rw [if_pos hid]
        have hle := hidinj l hl hid
        subst hle
        simp [logKey, applyData, hdq, hpe.2]
      · rw [if_neg hid]
    have hpredfix : ∀ l ∈ s.logs,
        (fun x => decide (x.userDbId = db.id ∧ x.queryHash = hashOfRow row))
            (if l.id = e.id then applyData l (dataOfRow now row) else l) =
          (fun x => decide (x.userDbId = db.id ∧ x.queryHash = hashOfRow row)) l := by
      intro l hl
      have hk := hfid l hl
      have h1 : (if l.id = e.id then applyData l (dataOfRow now row) else l).userDbId =
          l.userDbId := congrArg Prod.fst hk
      have h2 : (if l.id = e.id then applyData l (dataOfRow now row) else l).queryHash =
          l.queryHash := congrArg Prod.snd hk
      simp only [h1, h2]
    rw [filter_map_comm _ _ _ hpredfix]
    have hpredkey : ∀ l ∈ s.logs,
        (decide (l.userDbId = db.id ∧ l.queryHash = hashOfRow row)) =
          (decide (logKey l = (db.id, hashOfRow row))) := by
      intro l _
      rcases hd : decide (logKey l = (db.id, hashOfRow row)) with hh | hh
      · rcases hd2 : decide (l.userDbId = db.id ∧ l.queryHash = hashOfRow row) with h2 | h2
        · rfl
        · exact absurd ((keypred_iff l db.id (hashOfRow row)).mp hd2)
            (by simpa using hd)
      · rw [decide_eq_true_eq] at hd
        exact (keypred_iff l db.id (hashOfRow row)).mpr hd
    rw [List.filter_congr hpredkey,
      filter_key_single logKey s.logs e (db.id, hashOfRow row) hkeys hemem
        (by simp [logKey, Prod.ext_iff]; exact hpe)]
    refine ⟨applyData e (dataOfRow now row), ?_, rfl, rfl, rfl, rfl, rfl, rfl, rfl⟩
    simp

theorem processLogRow_other_key (db : UserDB) (now : Nat) (s : SystemState)
    (row : StatRow) (hinv : StoreInv s) (uid h : String)
    (hne : (uid, h) ≠ (db.id, hashOfRow row)) :
    keyFilter (processLogRow db now s row).logs uid h = keyFilter s.logs uid h := by
  obtain ⟨hids, _, _⟩ := hinv
  have hdq : (dataOfRow now row).queryHash = hashOfRow row := rfl
  simp only [processLogRow, keyFilter]
  rcases hf : s.logs.find? (fun l => decide (l.userDbId = db.id ∧
      l.queryHash = (dataOfRow now row).queryHash)) with _ | e
  · simp only [hf]
    rcases hany : s.logs.any (fun l => l.queryHash =
        (newLogOf s.nextLogId db.id (jsOrElse row.query "")
          (dataOfRow now row)).queryHash) with _ | _
    · -- create succeeds: the appended record carries the step's own
      -- key, not (uid, h)
      have hcreate : prismaCreateQueryLog s.logs
          (newLogOf s.nextLogId db.id (jsOrElse row.query "") (dataOfRow now row)) =
          Except.ok (s.logs ++
            [newLogOf s.nextLogId db.id (jsOrElse row.query "") (dataOfRow now row)]) := by
        unfold prismaCreateQueryLog
        rw [if_neg (by rw [hany]; simp)]
      simp only [hcreate]
      rw [List.filter_append]
      have hnew : (fun l => decide (l.userDbId = uid ∧ l.queryHash = h))
          (newLogOf s.nextLogId db.id (jsOrElse row.query "") (dataOfRow now row)) = false := by
        rw [decide_eq_false_iff_not]
        rintro ⟨h1, h2⟩
        apply hne
        have hu : uid = db.id := h1.symm
        have hh : h = hashOfRow row := by
          rw [← h2]
          exact hdq
        rw [hu, hh]
      have hsing : List.filter (fun l => decide (l.userDbId = uid ∧ l.queryHash = h))
          [newLogOf s.nextLogId db.id (jsOrElse row.query "") (dataOfRow now row)] = [] :=
        filter_of_all_neg _ _ (by
          intro x hx
          rw [List.mem_singleton] at hx
          subst hx
          exact hnew)
      rw [hsing, List.append_nil]
    · -- create rejected by the unique hash index: the row is skipped
      have hcreate : prismaCreateQueryLog s.logs
          (newLogOf s.nextLogId db.id (jsOrElse row.query "") (dataOfRow now row)) =
          Except.error "Unique constraint failed on the fields: (queryHash)" := by
        unfold prismaCreateQueryLog
        rw [if_pos hany]
      simp only [hcreate]
  · -- update: the rewritten record keeps its key, which is the step's own key
    simp only [hf]
    have hemem := List.mem_of_find?_eq_some hf
    have hpe : e.userDbId = db.id ∧ e.queryHash = hashOfRow row := by
      have := List.find?_some hf
      rw [hdq] at this
      simpa using this
    have hidinj : ∀ l ∈ s.logs, l.id = e.id → l = e := by
      intro l hl hid
      exact List.inj_on_of_nodup_map hids hl hemem hid
    have hfid : ∀ l ∈ s.logs,
        logKey (if l.id = e.id then applyData l (dataOfRow now row) else l) = logKey l := by
      intro l hl
      by_cases hid : l.id = e.id
      · rw [if_pos hid]
        have hle := hidinj l hl hid
        subst hle
        simp [logKey, applyData, hdq, hpe.2]
      · rw [if_neg hid]
    have hpredfix : ∀ l ∈ s.logs,
        (fun x => decide (x.userDbId = uid ∧ x.queryHash = h))
            (if l.id = e.id then applyData l (dataOfRow now row) else l) =
          (fun x => decide (x.userDbId = uid ∧ x.queryHash = h)) l := by
      intro l hl
      have hk := hfid l hl
      have h1 : (if l.id = e.id then applyData l (dataOfRow now row) else l).userDbId =
          l.userDbId := congrArg Prod.fst hk
      have h2 : (if l.id = e.id then applyData l (dataOfRow now row) else l).queryHash =
          l.queryHash := congrArg Prod.snd hk
      simp only [h1, h2]
    rw [filter_map_comm _ _ _ hpredfix]
    have hmapid : ∀ l ∈ s.logs.filter (fun x => decide (x.userDbId = uid ∧ x.queryHash = h)),
        (if l.id = e.id then applyData l (dataOfRow now row) else l) = l := by
      intro l hl
      have hl2 := List.mem_filter.mp hl
      have hlk : logKey l = (uid, h) := (keypred_iff l uid h).mp hl2.2
      by_cases hid : l.id = e.id
      · exfalso
        have hle := hidinj l hl2.1 hid
        subst hle
        exact hne (by rw [← hlk, logKey, hpe.1, hpe.2])
      · rw [if_neg hid]
    rw [List.map_congr_left hmapid]
    simp

theorem processLogRow_inv (db : UserDB) (now : Nat) (s : SystemState)
    (row : StatRow) (hinv : StoreInv s) : StoreInv (processLogRow db now s row) := by
  obtain ⟨hids, hbound, hkeys⟩ := hinv
  have hdq : (dataOfRow now row).queryHash = hashOfRow row := rfl
  simp only [processLogRow]
  rcases hf : s.logs.find? (fun l => decide (l.userDbId = db.id ∧
      l.queryHash = (dataOfRow now row).queryHash)) with _ | e
  · simp only [hf]
    rcases hany : s.logs.any (fun l => l.queryHash =
        (newLogOf s.nextLogId db.id (jsOrElse row.query "")
          (dataOfRow now row)).queryHash) with _ | _
    · -- create succeeds
      have hcreate : prismaCreateQueryLog s.logs
          (newLogOf s.nextLogId db.id (jsOrElse row.query "") (dataOfRow now row)) =
          Except.ok (s.logs ++
            [newLogOf s.nextLogId db.id (jsOrElse row.query "") (dataOfRow now row)]) := by
        unfold prismaCreateQueryLog
        rw [if_neg (by rw [hany]; simp)]
      simp only [hcreate]
      refine ⟨?_, ?_, ?_⟩
      · simp only [List.map_append, List.map_cons, List.map_nil]
        apply nodup_append_single hids
        intro hmem
        obtain ⟨l, hl, hlid⟩ := List.mem_map.mp hmem
        exact absurd hlid (Nat.ne_of_lt (hbound l hl))
      · intro l hl
        rcases List.mem_append.mp hl with h1 | h1
        · exact Nat.lt_succ_of_lt (hbound l h1)
        · rw [List.mem_singleton.mp h1]
          exact Nat.lt_succ_self _
      · simp only [List.map_append, List.map_cons, List.map_nil]
        apply nodup_append_single hkeys
        intro hmem
        obtain ⟨l, hl, hlk⟩ := List.mem_map.mp hmem
        have := List.find?_eq_none.mp hf l hl
        rw [decide_eq_true_eq] at this
        apply this
        have : logKey l = (db.id, (dataOfRow now row).queryHash) := by
          rw [hlk]
          simp [newLogOf, logKey, hdq]
        exact ⟨congrArg Prod.fst this, congrArg Prod.snd this⟩
    · -- create rejected: the state is untouched
      have hcreate : prismaCreateQueryLog s.logs
          (newLogOf s.nextLogId db.id (jsOrElse row.query "") (dataOfRow now row)) =
          Except.error "Unique constraint failed on the fields: (queryHash)" := by
        unfold prismaCreateQueryLog
        rw [if_pos hany]
      simp only [hcreate]
      exact ⟨hids, hbound, hkeys⟩
  · -- update
    simp only [hf]
    have hemem := List.mem_of_find?_eq_some hf
    have hpe : e.userDbId = db.id ∧ e.queryHash = hashOfRow row := by
      have := List.find?_some hf
      rw [hdq] at this
      simpa using this
    have hidinj : ∀ l ∈ s.logs, l.id = e.id → l = e := by
      intro l hl hid
      exact List.inj_on_of_nodup_map hids hl hemem hid
    have hfidsame : ∀ l ∈ s.logs,
        (if l.id = e.id then applyData l (dataOfRow now row) else l).id = l.id := by
      intro l _
      by_cases hid : l.id = e.id
      · rw [if_pos hid]; rfl
      · rw [if_neg hid]
    have hfid : ∀ l ∈ s.logs,
        logKey (if l.id = e.id then applyData l (dataOfRow now row) else l) = logKey l := by
      intro l hl
      by_cases hid : l.id = e.id
      · rw [if_pos hid]
        have hle := hidinj l hl hid
        subst hle
        simp [logKey, applyData, hdq, hpe.2]
      · rw [if_neg hid]
    refine ⟨?_, ?_, ?_⟩
    · rw [List.map_map]
      have hcongr : List.map
          ((fun l => l.id) ∘ fun l => if l.id = e.id then applyData l (dataOfRow now row) else l)
          s.logs = List.map (fun l => l.id) s.logs :=
        List.map_congr_left (fun l hl => hfidsame l hl)
      rw [hcongr]
      exact hids
    · intro l hl
      obtain ⟨x, hx, hfx⟩ := List.mem_map.mp hl
      rw [← hfx]
      rw [hfidsame x hx]
      exact hbound x hx
    · rw [List.map_map]
      have hcongr : List.map
          (logKey ∘ fun l => if l.id = e.id then applyData l (dataOfRow now row) else l)
          s.logs = List.map logKey s.logs :=
        List.map_congr_left (fun l hl => hfid l hl)
      rw [hcongr]
      exact hkeys

theorem processLogRow_noForeign (db : UserDB) (now : Nat) (s : SystemState)
    (row : StatRow) (hinv : StoreInv s) (uid h : String)
    (hcond : db.id = uid ∨ hashOfRow row ≠ h)
    (hnf : NoForeignHash s uid h) :
    NoForeignHash (processLogRow db now s row) uid h := by
  obtain ⟨hids, _, _⟩ := hinv
  have hdq : (dataOfRow now row).queryHash = hashOfRow row := rfl
  intro l2 hl2 hl2h
  simp only [processLogRow] at hl2
  rcases hf : s.logs.find? (fun l => decide (l.userDbId = db.id ∧
      l.queryHash = (dataOfRow now row).queryHash)) with _ | e
  · simp only [hf] at hl2
    rcases hany : s.logs.any (fun l => l.queryHash =
        (newLogOf s.nextLogId db.id (jsOrElse row.query "")
          (dataOfRow now row)).queryHash) with _ | _
    · have hcreate : prismaCreateQueryLog s.logs
          (newLogOf s.nextLogId db.id (jsOrElse row.query "") (dataOfRow now row)) =
          Except.ok (s.logs ++
            [newLogOf s.nextLogId db.id (jsOrElse row.query "") (dataOfRow now row)]) := by
        unfold prismaCreateQueryLog
        rw [if_neg (by rw [hany]; simp)]
      simp only [hcreate] at hl2
      rcases List.mem_append.mp hl2 with hmem | hmem
      · exact hnf l2 hmem hl2h
      · rw [List.mem_singleton] at hmem
        subst hmem
        rcases hcond with hc | hc
        · exact hc
        · exfalso
          apply hc
          rw [← hl2h]
          exact hdq.symm
    · have hcreate : prismaCreateQueryLog s.logs
          (newLogOf s.nextLogId db.id (jsOrElse row.query "") (dataOfRow now row)) =
          Except.error "Unique constraint failed on the fields: (queryHash)" := by
        unfold prismaCreateQueryLog
        rw [if_pos hany]
      simp only [hcreate] at hl2
      exact hnf l2 hl2 hl2h
  · simp only [hf] at hl2
    obtain ⟨x, hx, hfx⟩ := List.mem_map.mp hl2
    have hemem := List.mem_of_find?_eq_some hf
    have hpe : e.userDbId = db.id ∧ e.queryHash = hashOfRow row := by
      have := List.find?_some hf
      rw [hdq] at this
      simpa using this
    by_cases hid : x.id = e.id
    · have hxe : x = e := List.inj_on_of_nodup_map hids hx hemem hid
      rw [if_pos hid] at hfx
      rcases hcond with hc | hc
      · rw [← hfx]
        show x.userDbId = uid
        rw [hxe, hpe.1]
        exact hc
      · exfalso
        apply hc
        rw [← hfx] at hl2h
        rw [← hl2h]
        exact hdq.symm
    · rw [if_neg hid] at hfx
      rw [← hfx]
      exact hnf x hx (by rw [hfx]; exact hl2h)

theorem collectLogsForDb_userDbs (db : UserDB) (now : Nat) :
    ∀ (rows : List StatRow) (s : SystemState),
      (collectLogsForDb db rows now s).userDbs = s.userDbs := by
  intro rows
  induction rows with
  | nil => intro s; rfl
  | cons r rs ih =>
    intro s
    show (collectLogsForDb db rs now (processLogRow db now s r)).userDbs = s.userDbs
    rw [ih, processLogRow_userDbs]

theorem collectLogsForDb_inv (db : UserDB) (now : Nat) :
    ∀ (rows : List StatRow) (s : SystemState),
      StoreInv s → StoreInv (collectLogsForDb db rows now s) := by
  intro rows
  induction rows with
  | nil => intro s h; exact h
  | cons r rs ih =>
    intro s h
    exact ih _ (processLogRow_inv db now s r h)

theorem collectLogsForDb_noForeign (db : UserDB) (now : Nat) :
    ∀ (rows : List StatRow) (s : SystemState) (uid h : String),
      StoreInv s →
      (db.id = uid ∨ ∀ r ∈ rows, hashOfRow r ≠ h) →
      NoForeignHash s uid h →
      NoForeignHash (collectLogsForDb db rows now s) uid h := by
  intro rows
  induction rows with
  | nil => intro s uid h _ _ hnf; exact hnf
  | cons r rs ih =>
    intro s uid h hinv hcond hnf
    exact ih _ uid h (processLogRow_inv db now s r hinv)
      (hcond.imp id (fun hc r2 hr2 => hc r2 (List.mem_cons_of_mem r hr2)))
      (processLogRow_noForeign db now s r hinv uid h
        (hcond.imp id (fun hc => hc r (List.mem_cons_self r rs))) hnf)

theorem collectLogsForDb_key_frame (db : UserDB) (now : Nat) :
    ∀ (rows : List StatRow) (s : SystemState) (uid h : String),
      StoreInv s →
      (∀ r ∈ rows, (uid, h) ≠ (db.id, hashOfRow r)) →
      keyFilter (collectLogsForDb db rows now s).logs uid h =
        keyFilter s.logs uid h := by
  intro rows
  induction rows with
  | nil => intro s uid h _ _; rfl
  | cons r rs ih =>
    intro s uid h hinv hne
    show keyFilter (collectLogsForDb db rs now (processLogRow db now s r)).logs uid h = _
    rw [ih _ uid h (processLogRow_inv db now s r hinv)
        (fun r2 hr2 => hne r2 (List.mem_cons_of_mem r hr2)),
      processLogRow_other_key db now s r hinv uid h (hne r (List.mem_cons_self r rs))]

theorem collectLogsForDb_own_key (db : UserDB) (now : Nat) :
    ∀ (rows : List StatRow) (s : SystemState) (row : StatRow),
      StoreInv s → NoForeignHash s db.id (hashOfRow row) →
      (rows.map hashOfRow).Nodup → row ∈ rows →
      ∃ l, keyFilter (collectLogsForDb db rows now s).logs db.id (hashOfRow row) = [l] ∧
        MetricsMatch l (dataOfRow now row) := by
  intro rows
  induction rows with
  | nil => intro s row _ _ _ hrow; cases hrow
  | cons r rs ih =>
    intro s row hinv hnf hnd hrow
    rw [List.map_cons, List.nodup_cons] at hnd
    rcases List.mem_cons.mp hrow with rfl | hmem
    · obtain ⟨l, hfil, hmm⟩ := processLogRow_own_key db now s row hinv hnf
      refine ⟨l, ?_, hmm⟩
      show keyFilter (collectLogsForDb db rs now (processLogRow db now s row)).logs
          db.id (hashOfRow row) = [l]
      rw [collectLogsForDb_key_frame db now rs _ db.id (hashOfRow row)
        (processLogRow_inv db now s row hinv)
        (fun r2 hr2 => by
          intro hcontra
          apply hnd.1
          rw [Prod.mk.injEq] at hcontra
          rw [hcontra.2]
          exact List.mem_map_of_mem hashOfRow hr2)]
      exact hfil
    · exact ih _ row (processLogRow_inv db now s r hinv)
        (processLogRow_noForeign db now s r hinv db.id (hashOfRow row) (Or.inl rfl) hnf)
        hnd.2 hmem

theorem foldDbs_userDbs (rowsFor : String → List StatRow) (now : Nat) :
    ∀ (dbs : List UserDB) (s : SystemState),
      (dbs.foldl (fun st db => collectLogsForDb db (rowsFor db.id) now st) s).userDbs =
        s.userDbs := by
  intro dbs
  induction dbs with
  | nil => intro s; rfl
  | cons d tl ih =>
    intro s
    rw [List.foldl_cons, ih, collectLogsForDb_userDbs]

theorem foldDbs_inv (rowsFor : String → List StatRow) (now : Nat) :
    ∀ (dbs : List UserDB) (s : SystemState),
      StoreInv s →
      StoreInv (dbs.foldl (fun st db => collectLogsForDb db (rowsFor db.id) now st) s) := by
  intro dbs
  induction dbs with
  | nil => intro s h; exact h
  | cons d tl ih =>
    intro s h
    rw [List.foldl_cons]
    exact ih _ (collectLogsForDb_inv d now _ s h)

theorem foldDbs_noForeign (rowsFor : String → List StatRow) (now : Nat) :
    ∀ (dbs : List UserDB) (s : SystemState) (uid h : String),
      StoreInv s →
      (∀ d ∈ dbs, d.id = uid ∨ ∀ r ∈ rowsFor d.id, hashOfRow r ≠ h) →
      NoForeignHash s uid h →
      NoForeignHash
        (dbs.foldl (fun st db => collectLogsForDb db (rowsFor db.id) now st) s) uid h := by
  intro dbs
  induction dbs with
  | nil => intro s uid h _ _ hnf; exact hnf
  | cons d tl ih =>
    intro s uid h hinv hcond hnf
    rw [List.foldl_cons]
    exact ih _ uid h (collectLogsForDb_inv d now _ s hinv)
      (fun d2 hd2 => hcond d2 (List.mem_cons_of_mem d hd2))
      (collectLogsForDb_noForeign d now _ s uid h hinv
        (hcond d (List.mem_cons_self d tl)) hnf)

theorem foldDbs_key_frame (rowsFor : String → List StatRow) (now : Nat) :
    ∀ (dbs : List UserDB) (s : SystemState) (uid h : String),
      StoreInv s → (∀ d ∈ dbs, d.id ≠ uid) →
      keyFilter
          ((dbs.foldl (fun st db => collectLogsForDb db (rowsFor db.id) now st) s).logs)
          uid h =
        keyFilter s.logs uid h := by
  intro dbs
  induction dbs with
  | nil => intro s uid h _ _; rfl
  | cons d tl ih =>
    intro s uid h hinv hne
    rw [List.foldl_cons,
      ih _ uid h (collectLogsForDb_inv d now _ s hinv)
        (fun d2 hd2 => hne d2 (List.mem_cons_of_mem d hd2)),
      collectLogsForDb_key_frame d now _ s uid h hinv
        (fun r _ => by
          intro hcontra
          rw [Prod.mk.injEq] at hcontra
          exact hne d (List.mem_cons_self d tl) hcontra.1.symm)]

theorem foldDbs_own_key (rowsFor : String → List StatRow) (now : Nat) :
    ∀ (dbs : List UserDB) (s : SystemState) (db : UserDB) (row : StatRow),
      StoreInv s → NoForeignHash s db.id (hashOfRow row) →
      (∀ d ∈ dbs, d.id = db.id ∨ ∀ r ∈ rowsFor d.id, hashOfRow r ≠ hashOfRow row) →
      (dbs.map (fun d => d.id)).Nodup → db ∈ dbs →
      ((rowsFor db.id).map hashOfRow).Nodup → row ∈ rowsFor db.id →
      ∃ l, keyFilter
          ((dbs.foldl (fun st db => collectLogsForDb db (rowsFor db.id) now st) s).logs)
          db.id (hashOfRow row) = [l] ∧
        MetricsMatch l (dataOfRow now row) := by
  intro dbs
  induction dbs with
  | nil => intro s db row _ _ _ _ hdb; cases hdb
  | cons d tl ih =>
    intro s db row hinv hnf hconds hnd hdb hhashes hrow
    rw [List.map_cons, List.nodup_cons] at hnd
    rw [List.foldl_cons]
    rcases List.mem_cons.mp hdb with rfl | hmem
    · obtain ⟨l, hfil, hmm⟩ :=
        collectLogsForDb_own_key db now (rowsFor db.id) s row hinv hnf hhashes hrow
      refine ⟨l, ?_, hmm⟩
      rw [foldDbs_key_frame rowsFor now tl _ db.id (hashOfRow row)
        (collectLogsForDb_inv db now _ s hinv)
        (fun d2 hd2 => by
          intro hcontra
          apply hnd.1
          rw [← hcontra]
          exact List.mem_map_of_mem (fun d => d.id) hd2)]
      exact hfil
    · exact ih _ db row (collectLogsForDb_inv d now _ s hinv)
        (collectLogsForDb_noForeign d now _ s db.id (hashOfRow row) hinv
          (hconds d (List.mem_cons_self d tl)) hnf)
        (fun d2 hd2 => hconds d2 (List.mem_cons_of_mem d hd2))
        hnd.2 hmem hhashes hrow

/-- C1 (amended): *provided the repository-wide `QueryLog_queryHash_key`
unique index does not reject the insert* — no record of another target
holds the row's hash, and no other polled target's output contains a
row with that hash — running the collection poll twice with identical
statistics-extension output leaves exactly one QueryRecord under the
key `(db, hash(row text))`, and its metric fields — calls, total, mean,
min and max time, rows returned and the collection timestamp — equal
the second poll's values: the upsert overwrites, it does not
accumulate.  (Without that proviso the create throws, the row-level
catch skips the row, and no record is left at all — see the
counterexample.) -/
theorem collect_logs_double_poll_single_record
    (rowsFor : String → List StatRow) (now1 now2 : Nat) (s : SystemState)
    (db : UserDB) (row : StatRow)
    (hinv : StoreInv s)
    (hids : (s.userDbs.map (fun d => d.id)).Nodup)
    (hdb : db ∈ s.userDbs) (hmon : db.monitoringEnabled = true)
    (hrow : row ∈ rowsFor db.id)
    (hhashes : ((rowsFor db.id).map hashOfRow).Nodup)
    (hnf : NoForeignHash s db.id (hashOfRow row))
    (hothers : ∀ db2 ∈ s.userDbs, db2.monitoringEnabled = true → db2.id ≠ db.id →
      ∀ r ∈ rowsFor db2.id, hashOfRow r ≠ hashOfRow row) :
    ∃ l, keyFilter (collectLogs rowsFor now2 (collectLogs rowsFor now1 s)).logs
        db.id (hashOfRow row) = [l] ∧ MetricsMatch l (dataOfRow now2 row) := by
  have hconds : ∀ d ∈ s.userDbs.filter (fun db => db.monitoringEnabled),
      d.id = db.id ∨ ∀ r ∈ rowsFor d.id, hashOfRow r ≠ hashOfRow row := by
    intro d hd
    have hd2 := List.mem_filter.mp hd
    by_cases hdid : d.id = db.id
    · exact Or.inl hdid
    · exact Or.inr (hothers d hd2.1 hd2.2 hdid)
  have hinv1 : StoreInv (collectLogs rowsFor now1 s) := by
    simp only [collectLogs]
    exact foldDbs_inv rowsFor now1 _ s hinv
  have hnf1 : NoForeignHash (collectLogs rowsFor now1 s) db.id (hashOfRow row) := by
    simp only [collectLogs]
    exact foldDbs_noForeign rowsFor now1 _ s db.id (hashOfRow row) hinv hconds hnf
  have hudb : (collectLogs rowsFor now1 s).userDbs = s.userDbs := by
    simp only [collectLogs]
    exact foldDbs_userDbs rowsFor now1 _ s
  have h2 : collectLogs rowsFor now2 (collectLogs rowsFor now1 s) =
      (((collectLogs rowsFor now1 s).userDbs.filter
          (fun db => db.monitoringEnabled)).foldl
        (fun st db => collectLogsForDb db (rowsFor db.id) now2 st)
        (collectLogs rowsFor now1 s)) := rfl
  rw [h2, hudb]
  apply foldDbs_own_key rowsFor now2 _ _ db row hinv1 hnf1 hconds ?_ ?_ hhashes hrow
  · exact List.Nodup.sublist
      (List.Sublist.map (fun d => d.id) (List.filter_sublist s.userDbs)) hids
  · exact List.mem_filter.mpr ⟨hdb, hmon⟩

/-- C1 witness: two polls over an initially empty store for one target
and one row — no record of another target holds the hash. -/
theorem collect_logs_double_poll_single_record_witness :
    ∃ l, keyFilter
        (collectLogs (fun _ => [statRow1]) 20
          (collectLogs (fun _ => [statRow1]) 10 baseState)).logs
        dbA.id (hashOfRow statRow1) = [l] ∧
      MetricsMatch l (dataOfRow 20 statRow1) :=
  collect_logs_double_poll_single_record (fun _ => [statRow1]) 10 20 baseState dbA
    statRow1 (by decide) (by decide) (by decide) rfl (by decide) (by simp)
    (fun l hl _ => absurd hl (List.not_mem_nil l))
    (fun db2 hdb2 _ hne =>
      absurd (congrArg UserDB.id (List.mem_singleton.mp hdb2)) hne)

/-- C1 counterexample: the claim, as stated, promises exactly one
record for `(T, hash(q))` after two identical polls, for *every*
monitored target and query text.  On the code this fails because of the
repository-wide unique hash index: here another target (`db-b`)
already holds the digest of `SELECT 1`, so monitored `db-a`'s create is
rejected, the row-level catch skips the row on both polls, and *zero*
records for `(db-a, hash(SELECT 1))` exist afterwards. -/
theorem collect_poll_foreign_hash_skipped_counterexample :
    dbA.monitoringEnabled = true ∧
      foreignLog.userDbId ≠ dbA.id ∧
      foreignLog.queryHash = hashOfRow statRow1 ∧
      keyFilter
          (collectLogs (fun _ => [statRow1]) 20
            (collectLogs (fun _ => [statRow1]) 10 cState)).logs
          dbA.id (hashOfRow statRow1) = [] ∧
      ¬ ∃ l, keyFilter
            (collectLogs (fun _ => [statRow1]) 20
              (collectLogs (fun _ => [statRow1]) 10 cState)).logs
            dbA.id (hashOfRow statRow1) = [l] ∧
          MetricsMatch l (dataOfRow 20 statRow1) := by
  have hcl : cState.logs = [foreignLog] := rfl
  have hstep : ∀ now : Nat, processLogRow dbA now cState statRow1 = cState := by
    intro now
    simp only [processLogRow]
    have hfind : cState.logs.find? (fun l => decide (l.userDbId = dbA.id ∧
        l.queryHash = (dataOfRow now statRow1).queryHash)) = none := by
      rw [List.find?_eq_none]
      intro x hx
      rw [hcl, List.mem_singleton] at hx
      subst hx
      simp only [decide_eq_true_eq, not_and]
      intro h1
      exact absurd h1 (by decide)
    simp only [hfind]
    have hany : cState.logs.any (fun l => l.queryHash =
        (newLogOf cState.nextLogId dbA.id (jsOrElse statRow1.query "")
          (dataOfRow now statRow1)).queryHash) = true := by
      rw [List.any_eq_true]
      refine ⟨foreignLog, ?_, ?_⟩
      · rw [hcl]
        exact List.mem_singleton.mpr rfl
      · exact decide_eq_true rfl
    have hcreate : prismaCreateQueryLog cState.logs
        (newLogOf cState.nextLogId dbA.id (jsOrElse statRow1.query "")
          (dataOfRow now statRow1)) =
        Except.error "Unique constraint failed on the fields: (queryHash)" := by
      unfold prismaCreateQueryLog
      rw [if_pos hany]
    simp only [hcreate]
  have hpoll : ∀ now : Nat, collectLogs (fun _ => [statRow1]) now cState = cState := by
    intro now
    show ((cState.userDbs.filter (fun db => db.monitoringEnabled)).foldl
      (fun st db => collectLogsForDb db ((fun _ => [statRow1]) db.id) now st)
      cState) = cState
    have hfilter : cState.userDbs.filter (fun db => db.monitoringEnabled) = [dbA] := rfl
    rw [hfilter, List.foldl_cons, List.foldl_nil]
    exact hstep now
  have hempty : keyFilter
      (collectLogs (fun _ => [statRow1]) 20
        (collectLogs (fun _ => [statRow1]) 10 cState)).logs
      dbA.id (hashOfRow statRow1) = [] := by
    rw [hpoll 10, hpoll 20]
    simp only [keyFilter]
    apply filter_of_all_neg
    intro x hx
    rw [hcl, List.mem_singleton] at hx
    subst hx
    decide
  refine ⟨rfl, by decide, rfl, hempty, ?_⟩
  rintro ⟨l, hl, _⟩
  rw [hempty] at hl
  exact List.noConfusion hl

end ShipFast
